import Mathlib

/-!
Verification of the secpoll ingestion pipeline (src/main.py, src/utils.py)
against its natural-language specification.

The Python source is shallowly embedded: pure helpers become Lean functions,
the PostgreSQL tables become lists of rows inside an explicit `Db` state, the
poll loop becomes structural recursion over the list of sighted filings, and
Python exceptions become `Except String` errors (an error raised inside the
loop aborts the remaining iterations exactly as an uncaught exception does).
Python floats are modelled exactly: the decimal strings the feed emits are
parsed to an exact numerator over a power-of-ten denominator and `int(...)`
truncates toward zero.
-/

namespace SecPoll

/-- Characters treated as whitespace by Python `str.strip()` (ASCII subset). -/
def pyIsSpace (c : Char) : Bool :=
  c = ' ' || c = '\t' || c = '\n' || c = '\r' || c = '\x0b' || c = '\x0c'

/-- Model of Python `str.strip()`: drop leading and trailing whitespace. -/
def pyStrip (s : String) : String :=
  ⟨((s.data.dropWhile pyIsSpace).reverse.dropWhile pyIsSpace).reverse⟩

/-- Model of Python `str.upper()` on the ASCII strings the feed emits. -/
def pyUpper (s : String) : String :=
  ⟨s.data.map Char.toUpper⟩

/-- Model of Python `str.zfill(w)` on the digit strings read from the CIK
watch-list file: left-pad with zeros to width `w`. -/
def zfill (w : Nat) (s : String) : String :=
  if w ≤ s.length then s else ⟨List.replicate (w - s.length) '0'⟩ ++ s

/-- Does the first list occur at the head of the second? -/
def listIsPre : List Char → List Char → Bool
  | [], _ => true
  | _ :: _, [] => false
  | a :: as, b :: bs => a == b && listIsPre as bs

/-- Does the first list occur anywhere inside the second? -/
def listIsSub (needle : List Char) : List Char → Bool
  | [] => needle.isEmpty
  | c :: t => listIsPre needle (c :: t) || listIsSub needle t

/-- Model of the Python `sub in s` substring test (used for the
filename filter in `process_filings`). -/
def strContains (s sub : String) : Bool :=
  listIsSub sub.data s.data

/-- Model of Python `str.endswith` on the attachment names. -/
def strEndsWith (s suffix : String) : Bool :=
  listIsPre suffix.data.reverse s.data.reverse

/-- Numeric value of a list of decimal digit characters; `none` if any
character is not a digit. -/
def digitsVal : List Char → Option Nat
  | [] => some 0
  | c :: cs =>
    if c.isDigit then
      (digitsVal cs).map (fun n => (c.toNat - 48) * 10 ^ cs.length + n)
    else
      none

/-- The exact value of a parsed decimal float literal, kept unnormalised as
numerator over a power-of-ten denominator (Python's binary float is modelled
by the exact decimal value it approximates). -/
structure FloatVal where
  num : Int
  den : Nat
  deriving Repr, DecidableEq

/-- The rational value of a parsed float. -/
def FloatVal.toRat (p : FloatVal) : Rat :=
  (p.num : Rat) / (p.den : Rat)

/-- Model of Python `float(s)` on the decimal literals the feed emits
(optional sign, digits, optional single decimal point, at least one digit
somewhere): the exact decimal value, or `none` where Python raises
`ValueError`.  Exponent and special forms are absent from the feed and
are not modelled. -/
def pyFloat (s : String) : Option FloatVal :=
  let withSign : Int × List Char :=
    match s.data with
    | '-' :: rest => (-1, rest)
    | '+' :: rest => (1, rest)
    | cs => (1, cs)
  let sign := withSign.1
  let cs := withSign.2
  let intPart := cs.takeWhile (fun c => c ≠ '.')
  let rest := cs.dropWhile (fun c => c ≠ '.')
  match rest with
  | [] =>
    match digitsVal intPart with
    | some n => if intPart = [] then none else some ⟨sign * (n : Int), 1⟩
    | none => none
  | '.' :: frac =>
    if frac.any (fun c => c = '.') then none
    else if intPart = [] ∧ frac = [] then none
    else
      match digitsVal intPart, digitsVal frac with
      | some n, some m =>
        some ⟨sign * ((n : Int) * (10 : Int) ^ frac.length + (m : Int)), 10 ^ frac.length⟩
      | _, _ => none
  | _ => none

/-- Truncation of a parsed float toward zero: the model of Python
`int(...)` applied to a float value. -/
def floatTrunc (p : FloatVal) : Int :=
  if 0 ≤ p.num then ((p.num.toNat / p.den : Nat) : Int)
  else -(((-p.num).toNat / p.den : Nat) : Int)

/-- Model of Python `int(float(s))` (the caller strips first, matching
`int(float(x.strip()))` in the source). -/
def pyIntFloat (s : String) : Option Int :=
  (pyFloat s).map floatTrunc

/-! The XML document model.  A 13F information-table attachment is embedded as
the list of its `infoTable` elements; each sub-element is `some text` when
present and `none` when absent (BeautifulSoup `find` returning `None`,
respectively an lxml `string(...)` xpath evaluating to the empty string). -/

/-- The `votingAuthority` sub-element: its `Sole`, `Shared` and `None`
children, each optional.  The third child is called `noneCnt` because `none`
is taken in Lean. -/
structure VotingAuthority where
  sole : Option String
  shared : Option String
  noneCnt : Option String
  deriving Repr, DecidableEq

/-- One `infoTable` element of the information table. -/
structure InfoTable where
  nameOfIssuer : Option String
  cusip : Option String
  titleOfClass : Option String
  value : Option String
  sshPrnamt : Option String
  sshPrnamtType : Option String
  investmentDiscretion : Option String
  putCall : Option String
  votingAuthority : Option VotingAuthority
  deriving Repr, DecidableEq

/-- One extracted raw holding: the 13-column row appended by
`gather_data_with_bs4` / `gather_holdings_using_lxml` (utils.py,
`HOLDINGS_COLUMNS`); the `none` column is called `noneCnt`. -/
structure HoldingRowRaw where
  cik : String
  accession_number : String
  shares_amount : Int
  value : Int
  title_of_class : String
  share_type : String
  investment_discretion : String
  put_call : String
  sole : Int
  shared : Int
  noneCnt : Int
  name_of_issuer : String
  cusip : String
  deriving Repr, DecidableEq

/-- `element.text` on a BeautifulSoup lookup: `AttributeError` when the
element is absent (`find` returned `None`). -/
def reqText (o : Option String) (tag : String) : Except String String :=
  match o with
  | some t => Except.ok t
  | none => Except.error ("AttributeError: " ++ tag)

/-- `int(float(element.text.strip()))` on a BeautifulSoup lookup:
`AttributeError` when absent, `ValueError` when not a float literal. -/
def reqInt (o : Option String) (tag : String) : Except String Int :=
  match o with
  | none => Except.error ("AttributeError: " ++ tag)
  | some t =>
    match pyFloat (pyStrip t) with
    | some q => Except.ok (floatTrunc q)
    | none =>
      Except.error ("ValueError: could not convert string to float: " ++ pyStrip t)

/-- Extraction of one `infoTable` row by the BeautifulSoup tier
(utils.py `gather_data_with_bs4`, loop body, lines 174-219), field order and
validation exactly as in the source. -/
def extractRowBs4 (cik acc : String) (row : InfoTable) : Except String HoldingRowRaw := do
  let nm := pyStrip (← reqText row.nameOfIssuer "nameOfIssuer")
  let cu := pyStrip (← reqText row.cusip "cusip")
  let shareAmount ← reqInt row.sshPrnamt "sshPrnamt"
  let shareType := pyUpper (pyStrip (← reqText row.sshPrnamtType "sshPrnamtType"))
  if shareType ∉ (["SH", "PRN"] : List String) then
    throw ("ValueError: Invalid share type: " ++ shareType)
  let value ← reqInt row.value "value"
  let invDis := pyUpper (pyStrip (← reqText row.investmentDiscretion "investmentDiscretion"))
  if invDis ∉ (["SOLE", "DFND", "OTR"] : List String) then
    throw ("ValueError: Invalid investment discretion: " ++ invDis)
  let putCall :=
    match row.putCall with
    | some t => pyStrip t
    | none => "NONE"
  if pyUpper (pyStrip putCall) ∉ (["NONE", "PUT", "CALL"] : List String) then
    throw ("ValueError: Invalid put or call type: " ++ putCall)
  let title := pyStrip (← reqText row.titleOfClass "titleOfClass")
  match row.votingAuthority with
  | none => throw "AttributeError: votingAuthority"
  | some va => do
    let sole ← reqInt va.sole "Sole"
    let shared ← reqInt va.shared "Shared"
    let noneCnt ← reqInt va.noneCnt "None"
    pure
      { cik := cik, accession_number := acc, shares_amount := shareAmount
        value := value, title_of_class := title, share_type := shareType
        investment_discretion := invDis, put_call := putCall
        sole := sole, shared := shared, noneCnt := noneCnt
        name_of_issuer := nm, cusip := cu }

/-- Model of utils.py `gather_data_with_bs4` (lines 170-221): extract every
`infoTable` element in order; any raised error aborts the whole document with
zero rows returned. -/
def gather_data_with_bs4 (doc : List InfoTable) (cik acc : String) :
    Except String (List HoldingRowRaw) :=
  match doc with
  | [] => Except.ok []
  | row :: rest => do
    let r ← extractRowBs4 cik acc row
    let rs ← gather_data_with_bs4 rest cik acc
    pure (r :: rs)

/-- The lxml `string(...)` xpath result: empty string when the element is
absent. -/
def xmlStr (o : Option String) : String :=
  match o with
  | some t => t
  | none => ""

/-- `int(float(x.strip()))` on an lxml `string(...)` result: `ValueError`
when the (possibly empty) text is not a float literal. -/
def lxmlInt (o : Option String) : Except String Int :=
  match pyFloat (pyStrip (xmlStr o)) with
  | some q => Except.ok (floatTrunc q)
  | none =>
    Except.error ("ValueError: could not convert string to float: " ++ pyStrip (xmlStr o))

/-- `int(float(x.strip() or 0))`: the `or 0` inside `float` makes an absent
element parse as zero (the `sshPrnamt` field in the lxml tier). -/
def lxmlIntOrZero (o : Option String) : Except String Int :=
  let t := pyStrip (xmlStr o)
  if t = "" then Except.ok 0
  else
    match pyFloat t with
    | some q => Except.ok (floatTrunc q)
    | none => Except.error ("ValueError: could not convert string to float: " ++ t)

/-- The Python `int(...) or 0` applied AFTER the conversion (the voting
authority fields in the lxml tier): a no-op as placed in the source, kept to
mirror the code. -/
def pyOrZeroInt (n : Int) : Int :=
  if n = 0 then 0 else n

/-- Extraction of one `infoTable` row by the lxml tier (utils.py
`gather_holdings_using_lxml`, loop body, lines 228-321), field order,
defaulting and validation exactly as in the source. -/
def extractRowLxml (cik acc : String) (row : InfoTable) : Except String HoldingRowRaw := do
  let nm := pyStrip (xmlStr row.nameOfIssuer)
  let cu := pyStrip (xmlStr row.cusip)
  let title := pyStrip (xmlStr row.titleOfClass)
  let value ← lxmlInt row.value
  let sharesAmount ← lxmlIntOrZero row.sshPrnamt
  let shareType := pyUpper (pyStrip (xmlStr row.sshPrnamtType))
  if shareType ∉ (["SH", "PRN"] : List String) then
    throw ("ValueError: Invalid share type: " ++ shareType)
  let invDis := pyUpper (pyStrip (xmlStr row.investmentDiscretion))
  if invDis ∉ (["SOLE", "DFND", "OTR"] : List String) then
    throw ("ValueError: Invalid investment discretion: " ++ invDis)
  let putCallRaw := pyUpper (pyStrip (xmlStr row.putCall))
  let putCall := if putCallRaw = "" then "NONE" else putCallRaw
  if putCall ∉ (["NONE", "PUT", "CALL"] : List String) then
    throw ("ValueError: Invalid put or call type: " ++ putCall)
  let sole := pyOrZeroInt (← lxmlInt (row.votingAuthority.bind (fun v => v.sole)))
  let shared := pyOrZeroInt (← lxmlInt (row.votingAuthority.bind (fun v => v.shared)))
  let noneCnt := pyOrZeroInt (← lxmlInt (row.votingAuthority.bind (fun v => v.noneCnt)))
  pure
    { cik := cik, accession_number := acc, shares_amount := sharesAmount
      value := value, title_of_class := title, share_type := shareType
      investment_discretion := invDis, put_call := putCall
      sole := sole, shared := shared, noneCnt := noneCnt
      name_of_issuer := nm, cusip := cu }

/-- Model of utils.py `gather_holdings_using_lxml` (lines 224-323). -/
def gather_holdings_using_lxml (doc : List InfoTable) (cik acc : String) :
    Except String (List HoldingRowRaw) :=
  match doc with
  | [] => Except.ok []
  | row :: rest => do
    let r ← extractRowLxml cik acc row
    let rs ← gather_holdings_using_lxml rest cik acc
    pure (r :: rs)

/-! The relational store.  Each PostgreSQL table is a list of rows; surrogate
ids come from an explicit next-id counter (the serial sequence).  SQL `ON
CONFLICT` clauses become an existence test on the natural key, exactly as the
store's unique constraints resolve them. -/

/-- A lookup table row: `(id, name)` with `name` unique. -/
structure LookupTable where
  rows : List (Nat × String)
  nextId : Nat
  deriving Repr, DecidableEq

/-- One `INSERT INTO t (name) VALUES (v) ON CONFLICT (name) DO NOTHING`
(utils.py `insert_lookups`, line 347). -/
def lookupInsertValue (t : LookupTable) (v : String) : LookupTable :=
  if t.rows.any (fun r => r.2 == v) then t
  else { rows := t.rows ++ [(t.nextId, v)], nextId := t.nextId + 1 }

/-- The `execute_batch` over the unique values of one column. -/
def lookupInsertAll (t : LookupTable) (vs : List String) : LookupTable :=
  vs.foldl lookupInsertValue t

/-- The `SELECT name, id FROM t` dictionary (utils.py lines 355-356). -/
def lookupMap (t : LookupTable) (v : String) : Option Nat :=
  (t.rows.find? (fun r => r.2 == v)).map (fun r => r.1)

/-- Reverse direction of the dictionary, used to read a persisted holding
back to its classification text. -/
def lookupNameOf (t : LookupTable) (i : Nat) : Option String :=
  (t.rows.find? (fun r => r.1 == i)).map (fun r => r.2)

/-- The issuers table: `(issuer_id, cusip, issuer_name)` with `cusip`
unique. -/
structure IssuerTable where
  rows : List (Nat × String × String)
  nextId : Nat
  deriving Repr, DecidableEq

/-- One `INSERT INTO issuers (cusip, issuer_name) VALUES (c, n) ON CONFLICT
(cusip) DO UPDATE SET issuer_name = EXCLUDED.issuer_name` (utils.py
`insert_issuers`, line 371): refresh the name on an existing-key hit,
otherwise append a fresh row. -/
def issuerInsert (t : IssuerTable) (cusip nm : String) : IssuerTable :=
  if t.rows.any (fun r => r.2.1 == cusip) then
    { t with rows := t.rows.map (fun r => if r.2.1 == cusip then (r.1, r.2.1, nm) else r) }
  else
    { rows := t.rows ++ [(t.nextId, cusip, nm)], nextId := t.nextId + 1 }

/-- The `execute_batch` over the de-duplicated `(cusip, name)` pairs. -/
def issuerInsertAll (t : IssuerTable) (pairs : List (String × String)) : IssuerTable :=
  pairs.foldl (fun acc p => issuerInsert acc p.1 p.2) t

/-- The `SELECT cusip, issuer_id FROM issuers` dictionary (utils.py
lines 379-380). -/
def issuerMap (t : IssuerTable) (cusip : String) : Option Nat :=
  (t.rows.find? (fun r => r.2.1 == cusip)).map (fun r => r.1)

/-- The stored issuer name for a CUSIP. -/
def issuerNameOf (t : IssuerTable) (cusip : String) : Option String :=
  (t.rows.find? (fun r => r.2.1 == cusip)).map (fun r => r.2.2)

/-- The stored CUSIP for an issuer id (read-back direction). -/
def issuerCusipOf (t : IssuerTable) (i : Nat) : Option String :=
  (t.rows.find? (fun r => r.1 == i)).map (fun r => r.2.1)

/-- A row of the `filings` table (the columns the pipeline reads back). -/
structure FilingRow where
  filing_id : Nat
  company_id : Nat
  accession_number : String
  form_type : String
  deriving Repr, DecidableEq

/-- A row of the `holdings` table: exactly the column list of the bulk
`COPY` in utils.py `insert_holdings_batch` (lines 486-498). -/
structure HoldingRow where
  filing_id : Nat
  issuer_id : Nat
  title_of_class : Nat
  shares_or_principal_amount : Int
  shares_or_principal_type : Nat
  value : Int
  put_or_call : Nat
  investment_discretion : Nat
  voting_authority_sole : Int
  voting_authority_shared : Int
  voting_authority_none : Int
  deriving Repr, DecidableEq

/-- The relational store: the tables the ingestion pipeline touches.
`managers` is the companies/managers table keyed by the zero-filled CIK
string. -/
structure Db where
  managers : List (String × Nat)
  filings : List FilingRow
  nextFilingId : Nat
  issuers : IssuerTable
  titleOfClassT : LookupTable
  shareTypeT : LookupTable
  putCallT : LookupTable
  investmentDiscretionT : LookupTable
  holdings : List HoldingRow
  deriving Repr, DecidableEq

/-- Model of utils.py `filing_exists` (lines 54-68): the `SELECT
EXISTS(SELECT 1 FROM filings WHERE accession_number = ...)` probe. -/
def filing_exists (db : Db) (acc : String) : Bool :=
  db.filings.any (fun r => r.accession_number == acc)

/-- Number of `filings` rows carrying a given accession number. -/
def countAcc (db : Db) (acc : String) : Nat :=
  (db.filings.filter (fun r => r.accession_number == acc)).length

/-- Model of `get_manager_by_cik` as used by main.py line 81: look the CIK up
in the managers table, `None` when absent. -/
def getManagerByCik (db : Db) (cik : String) : Option Nat :=
  (db.managers.find? (fun r => r.1 == cik)).map (fun r => r.2)

/-- Model of `insert_filing` (utils.py lines 71-156, as invoked from main.py
line 87): append one `filings` row with a fresh surrogate id and return the
id. -/
def insert_filing (db : Db) (managerId : Nat) (acc form : String) : Db × Nat :=
  ({ db with
      filings := db.filings ++ [⟨db.nextFilingId, managerId, acc, form⟩]
      nextFilingId := db.nextFilingId + 1 },
   db.nextFilingId)

/-- Helper for first-occurrence de-duplication: drop elements already seen. -/
def firstUniquesAux {α : Type} [BEq α] (seen : List α) : List α → List α
  | [] => []
  | x :: xs =>
    if seen.any (fun y => y == x) then firstUniquesAux seen xs
    else x :: firstUniquesAux (seen ++ [x]) xs

/-- First-occurrence de-duplication, the model of pandas `unique()` /
`drop_duplicates()` on a column. -/
def firstUniques {α : Type} [BEq α] (l : List α) : List α :=
  firstUniquesAux [] l

/-- The `filings` dictionary built at the top of `insert_holdings_batch`
(utils.py lines 391-393). -/
def filingIdMap (db : Db) (acc : String) : Option Nat :=
  (db.filings.find? (fun r => r.accession_number == acc)).map (fun r => r.filing_id)

/-- Model of utils.py `insert_lookups` (lines 326-358): for each of the four
lookup tables, insert the unique values of the corresponding column with `ON
CONFLICT DO NOTHING`. -/
def insert_lookups (db : Db) (hs : List HoldingRowRaw) : Db :=
  { db with
      titleOfClassT := lookupInsertAll db.titleOfClassT (firstUniques (hs.map (fun h => h.title_of_class)))
      shareTypeT := lookupInsertAll db.shareTypeT (firstUniques (hs.map (fun h => h.share_type)))
      putCallT := lookupInsertAll db.putCallT (firstUniques (hs.map (fun h => h.put_call)))
      investmentDiscretionT := lookupInsertAll db.investmentDiscretionT
        (firstUniques (hs.map (fun h => h.investment_discretion))) }

/-- Model of utils.py `insert_issuers` (lines 361-380): upsert the
de-duplicated `(cusip, name)` pairs of the batch. -/
def insert_issuers (db : Db) (hs : List HoldingRowRaw) : Db :=
  { db with
      issuers := issuerInsertAll db.issuers
        (firstUniques (hs.map (fun h => (h.cusip, h.name_of_issuer)))) }

/-- The id-mapping step of `insert_holdings_batch` on one raw row (utils.py
lines 398-424): map every text key to its surrogate id; `none` when any map
misses, in which case pandas `dropna` silently removes the row. -/
def mapHoldingRow (db : Db) (h : HoldingRowRaw) : Option HoldingRow := do
  let fid ← filingIdMap db h.accession_number
  let iid ← issuerMap db.issuers h.cusip
  let tid ← lookupMap db.titleOfClassT h.title_of_class
  let sid ← lookupMap db.shareTypeT h.share_type
  let pid ← lookupMap db.putCallT h.put_call
  let did ← lookupMap db.investmentDiscretionT h.investment_discretion
  pure
    { filing_id := fid, issuer_id := iid, title_of_class := tid
      shares_or_principal_amount := h.shares_amount
      shares_or_principal_type := sid, value := h.value
      put_or_call := pid, investment_discretion := did
      voting_authority_sole := h.sole, voting_authority_shared := h.shared
      voting_authority_none := h.noneCnt }

/-- Model of utils.py `insert_holdings_batch` (lines 383-501): build the
filings dictionary, lazily create lookups and issuers from the batch itself,
map every row to surrogate ids, silently drop the rows where any map missed
(the `dropna`), and bulk-append the rest.  The function returns the new
store state and nothing else — no error and no row count, as in the
source (return type `None`). -/
def insert_holdings_batch (db : Db) (hs : List HoldingRowRaw) : Db :=
  let db1 := insert_lookups db hs
  let db2 := insert_issuers db1 hs
  { db2 with holdings := db2.holdings ++ hs.filterMap (mapHoldingRow db2) }

/-! The ingestion loop (main.py). -/

/-- One attachment of a filing descriptor: its document name and, for XML
attachments, the parsed information table. -/
structure Attachment where
  document : String
  content : List InfoTable
  deriving Repr, DecidableEq

/-- A filing descriptor from the feed (the fields `process_filings` reads).
Per the spec the entity identifier is a fixed-width numeric string. -/
structure FilingDesc where
  accession_number : String
  cik : String
  form : String
  attachments : List Attachment
  deriving Repr, DecidableEq

/-- An extraction strategy: what `gather_holdings_from_soup` yields on one
attachment's information table (the two tiers embedded above are its
instances). -/
def Extractor : Type :=
  List InfoTable → String → String → Except String (List HoldingRowRaw)

/-- The in-process state threaded through the loop: the store connection,
the seen-set, plus two observation logs — the accession numbers for which
extraction was invoked (one entry per XML attachment extracted) and the
notifications emitted. -/
structure LoopState where
  db : Db
  seen : List String
  extracted : List String
  notified : List String
  deriving Repr, DecidableEq

/-- The attachment filter of main.py lines 93-97: XML documents that are not
the primary document. -/
def isHoldingsXml (att : Attachment) : Bool :=
  strEndsWith att.document ".xml" && !(strContains att.document "primary_doc")

/-- The attachment loop of `process_filings` (main.py lines 93-124) for one
admitted filing: extract each qualifying XML attachment and bulk-insert its
holdings; an extraction failure or a failing `assert` (empty CUSIP or issuer
name, lines 105-108) raises, keeping the store effects made so far and
abandoning the rest.  Returns the store, the extraction log entries, and the
raised error if any. -/
def processAttachments (extract : Extractor) (cik acc : String) :
    Db → List String → List Attachment → Db × List String × Option String
  | db, log, [] => (db, log, none)
  | db, log, att :: rest =>
    if isHoldingsXml att then
      match extract att.content cik acc with
      | Except.error e => (db, log ++ [acc], some e)
      | Except.ok rows =>
        if rows.any (fun r => r.cusip == "" || r.name_of_issuer == "") then
          (db, log ++ [acc], some "AssertionError")
        else
          let db2 := if rows.isEmpty then db else insert_holdings_batch db rows
          processAttachments extract cik acc db2 (log ++ [acc]) rest
    else
      processAttachments extract cik acc db log rest

/-- One iteration of the `process_filings` loop (main.py lines 60-130) on one
sighted filing: the CIK filter, the seen-set gate, the durable existence
gate, the manager lookup, the filing insert, the attachment loop, and — on
success only — the seen-set marking followed by the notification (the
notification step is modelled from the spec, section 4.5: src/main.py never
invokes `publish_to_firehose`; the spec orders it after seen-marking). -/
def processOne (extract : Extractor) (relevant : List String) (st : LoopState)
    (f : FilingDesc) : LoopState × Option String :=
  if !(relevant.contains f.cik) then (st, none)
  else if st.seen.contains f.accession_number then (st, none)
  else if filing_exists st.db f.accession_number then
    ({ st with seen := st.seen ++ [f.accession_number] }, none)
  else
    match getManagerByCik st.db f.cik with
    | none => (st, none)
    | some managerId =>
      let ins := insert_filing st.db managerId f.accession_number f.form
      let res := processAttachments extract f.cik f.accession_number ins.1 [] f.attachments
      match res.2.2 with
      | some e => ({ st with db := res.1, extracted := st.extracted ++ res.2.1 }, some e)
      | none =>
        ({ st with
            db := res.1
            seen := st.seen ++ [f.accession_number]
            extracted := st.extracted ++ res.2.1
            notified := st.notified ++ [f.accession_number] }, none)

/-- Model of main.py `process_filings` (lines 59-130): fold `processOne` over
the batch; an uncaught exception aborts the remaining iterations and
propagates to the caller. -/
def process_filings (extract : Extractor) (relevant : List String) (st : LoopState) :
    List FilingDesc → LoopState × Option String
  | [] => (st, none)
  | f :: rest =>
    match processOne extract relevant st f with
    | (st2, some e) => (st2, some e)
    | (st2, none) => process_filings extract relevant st2 rest

/-- The gate outcome of one sighting, read off the gate checks of
`process_filings` (main.py lines 65-76) in their source order. -/
inductive GateResult where
  | irrelevant
  | alreadyProcessed
  | admitted
  deriving Repr, DecidableEq

/-- The gate of `process_filings` as a pure classifier over the same state
the loop consults. -/
def gateOf (db : Db) (seen : List String) (relevant : List String)
    (f : FilingDesc) : GateResult :=
  if !(relevant.contains f.cik) then GateResult.irrelevant
  else if seen.contains f.accession_number || filing_exists db f.accession_number then
    GateResult.alreadyProcessed
  else GateResult.admitted

/-- Model of utils.py `publish_to_firehose` (lines 504-536): one serialized
story is POSTed to every configured aggregator endpoint; per-endpoint
failures are logged only.  Returns the POSTs attempted. -/
def publish_to_firehose (acc : String) (aggregatorUrls : List String) :
    List (String × String) :=
  aggregatorUrls.map (fun url => (url, acc))

/-! The `Application.run` loop (main.py lines 165-236). -/

/-- The `CikFileHandler` change-detector state (main.py lines 35-54): the
md5 of the file content is modelled by the content itself (the comparison is
equality either way), the mtime by a counter. -/
structure CikHandler where
  lastContent : List String
  lastMtime : Nat
  deriving Repr, DecidableEq

/-- Model of `CikFileHandler.check_for_changes` (main.py lines 42-50): the
callback fires only when the mtime advanced and the content hash changed. -/
def checkForChanges (h : CikHandler) (mtime : Nat) (content : List String) :
    CikHandler × Bool :=
  if h.lastMtime < mtime then
    let h2 := { h with lastMtime := mtime }
    if content ≠ h2.lastContent then ({ h2 with lastContent := content }, true)
    else (h2, false)
  else (h, false)

/-- Model of `reload_ciks` (main.py lines 194-201): keep the non-blank
lines, strip and zero-fill each to ten characters. -/
def reload_ciks (fileLines : List String) : List String :=
  (fileLines.filter (fun l => pyStrip l ≠ "" && l ≠ "")).map (fun l => zfill 10 (pyStrip l))

/-- What one poll cycle observes: the watch file's mtime and content, and
the two feed pages (forms 13F-HR and 13F-HR/A). -/
structure Cycle where
  fileMtime : Nat
  fileLines : List String
  filings13F : List FilingDesc
  filings13FA : List FilingDesc
  deriving Repr, DecidableEq

/-- The whole-application state of `Application.run`: the change-detector,
`state['current_ciks']`, and the loop state. -/
structure AppState where
  handler : CikHandler
  currentCiks : List String
  loop : LoopState
  deriving Repr, DecidableEq

/-- One iteration of the `while not self.shutdown_flag` loop (main.py lines
214-227) with the frozen `relevant_ciks` snapshot: check the watch file
(reloading `state['current_ciks']` on change), then process both feed pages;
an exception propagates immediately. -/
def appStep (extract : Extractor) (relevantFrozen : List String) (st : AppState)
    (c : Cycle) : AppState × Option String :=
  let hc := checkForChanges st.handler c.fileMtime c.fileLines
  let cur := if hc.2 then reload_ciks c.fileLines else st.currentCiks
  let r1 := process_filings extract relevantFrozen st.loop c.filings13F
  match r1.2 with
  | some e => ({ handler := hc.1, currentCiks := cur, loop := r1.1 }, some e)
  | none =>
    let r2 := process_filings extract relevantFrozen r1.1 c.filings13FA
    ({ handler := hc.1, currentCiks := cur, loop := r2.1 }, r2.2)

/-- The cycle loop: the first uncaught exception breaks out of the `while`
(the `try` of main.py line 213 wraps the whole loop), so the remaining
cycles never run. -/
def appRun (extract : Extractor) (relevantFrozen : List String) (st : AppState) :
    List Cycle → AppState × Option String
  | [] => (st, none)
  | c :: rest =>
    match appStep extract relevantFrozen st c with
    | (st2, some e) => (st2, some e)
    | (st2, none) => appRun extract relevantFrozen st2 rest

/-- Model of `Application.run` (main.py lines 165-236): initial
`reload_ciks`, the one-time `relevant_ciks = set(state['current_ciks'])`
snapshot of line 204, the handler initialised on the same file, then the
cycle loop.  The second component is the exception that ended the run early,
if any — `run` catches it, logs, closes the connection and returns, so the
process exits. -/
def applicationRun (extract : Extractor) (initialLines : List String) (db0 : Db)
    (cycles : List Cycle) : AppState × Option String :=
  let cur := reload_ciks initialLines
  let relevantFrozen := cur
  appRun extract relevantFrozen
    { handler := { lastContent := initialLines, lastMtime := 0 }
      currentCiks := cur
      loop := { db := db0, seen := [], extracted := [], notified := [] } }
    cycles

/-! Claim-level predicates over documents. -/

/-- A document row carries an enumerated value outside its closed set: a
present share type outside SH/PRN, a present investment discretion outside
SOLE/DFND/OTR, or a present non-blank put/call outside NONE/PUT/CALL (a
blank put/call element is observationally identical to an absent one in the
lxml tier, whose xpath `string()` yields the empty string either way, and
the source defaults it). -/
def badEnum (r : InfoTable) : Bool :=
  (match r.sshPrnamtType with
   | some t => !((["SH", "PRN"] : List String).contains (pyUpper (pyStrip t)))
   | none => false) ||
  (match r.investmentDiscretion with
   | some t => !((["SOLE", "DFND", "OTR"] : List String).contains (pyUpper (pyStrip t)))
   | none => false) ||
  (match r.putCall with
   | some t =>
     pyStrip t ≠ "" && !((["NONE", "PUT", "CALL"] : List String).contains (pyUpper (pyStrip t)))
   | none => false)

/-- Is this optional element a non-negative numeric string? -/
def nonnegNum (o : Option String) : Bool :=
  match o with
  | some t =>
    match pyFloat (pyStrip t) with
    | some q => decide (0 ≤ q.num)
    | none => false
  | none => false

/-- Modelled from the spec: an `infoTable` element valid per the 13F
information-table schema — every required sub-element present, numeric
fields non-negative numeric strings, enumerated fields inside their closed
sets, put/call optional, the three voting-authority counts present and
numeric. -/
def validInfoTable (r : InfoTable) : Bool :=
  r.nameOfIssuer.isSome && r.cusip.isSome && r.titleOfClass.isSome &&
  nonnegNum r.value && nonnegNum r.sshPrnamt &&
  (match r.sshPrnamtType with
   | some t => (["SH", "PRN"] : List String).contains (pyUpper (pyStrip t))
   | none => false) &&
  (match r.investmentDiscretion with
   | some t => (["SOLE", "DFND", "OTR"] : List String).contains (pyUpper (pyStrip t))
   | none => false) &&
  (match r.putCall with
   | some t =>
     pyStrip t ≠ "" && (["NONE", "PUT", "CALL"] : List String).contains (pyUpper (pyStrip t))
   | none => true) &&
  (match r.votingAuthority with
   | some va => nonnegNum va.sole && nonnegNum va.shared && nonnegNum va.noneCnt
   | none => false)

/-! Concrete fixtures used by the scenario theorems and witnesses: the
well-formed one-entry information table of spec section 8, its two
malformed variants, a store that tracks two managers, and the filings the
scenarios sight. -/

/-- The spec-section-8 info-table entry: issuer Acme Corp, CUSIP 000000000,
value 1000.0, shares 500.0, type SH, discretion SOLE, no putCall, voting
sole 500 with shared and none zero. -/
def acmeTable : InfoTable :=
  { nameOfIssuer := some "Acme Corp", cusip := some "000000000"
    titleOfClass := some "COM", value := some "1000.0", sshPrnamt := some "500.0"
    sshPrnamtType := some "SH", investmentDiscretion := some "SOLE"
    putCall := none
    votingAuthority := some { sole := some "500", shared := some "0", noneCnt := some "0" } }

/-- The same entry with the voting-authority sub-element entirely absent. -/
def noVoteTable : InfoTable :=
  { acmeTable with votingAuthority := none }

/-- The same entry with the malformed share type of spec section 8. -/
def badTypeTable : InfoTable :=
  { acmeTable with sshPrnamtType := some "XYZ" }

/-- A store with two known managers and otherwise empty tables. -/
def baseDb : Db :=
  { managers := [("0000000111", 7), ("0000000222", 8)]
    filings := [], nextFilingId := 1
    issuers := { rows := [], nextId := 1 }
    titleOfClassT := { rows := [], nextId := 1 }
    shareTypeT := { rows := [], nextId := 1 }
    putCallT := { rows := [], nextId := 1 }
    investmentDiscretionT := { rows := [], nextId := 1 }
    holdings := [] }

/-- The well-formed scenario filing from the tracked entity. -/
def acmeFiling : FilingDesc :=
  { accession_number := "0001-22-000001", cik := "0000000111", form := "13F-HR"
    attachments := [{ document := "info.xml", content := [acmeTable] }] }

/-- A filing whose only attachment fails share-type validation. -/
def badFiling : FilingDesc :=
  { acmeFiling with
      accession_number := "0001-22-000002"
      attachments := [{ document := "info.xml", content := [badTypeTable] }] }

/-- A second well-formed filing, sighted after the malformed one. -/
def goodFiling : FilingDesc :=
  { acmeFiling with accession_number := "0001-22-000003" }

/-- A well-formed filing from the entity added to the watch list mid-run. -/
def cik222Filing : FilingDesc :=
  { acmeFiling with accession_number := "0001-22-000004", cik := "0000000222" }

/-- The frozen watch-list snapshot holding only the first entity. -/
def relOne : List String := ["0000000111"]

/-- The loop state at startup: the base store, everything else empty. -/
def startState : LoopState :=
  { db := baseDb, seen := [], extracted := [], notified := [] }

/-! Theorems.  First some structural lemmas about the pipeline. -/

/-- A prefix of a list already stripped of its leading matches is itself
stripped. -/
theorem dropWhile_eq_self_of_prefix {p : Char → Bool} {m l : List Char}
    (hl : l.dropWhile p = l) (hm : m <+: l) : m.dropWhile p = m := by
  cases m with
  | nil => rfl
  | cons x xs =>
    obtain ⟨t, ht⟩ := hm
    rw [List.cons_append] at ht
    have hx : p x = false := by
      by_contra hp
      rw [Bool.not_eq_false] at hp
      rw [← ht, List.dropWhile_cons_of_pos hp] at hl
      have hle : (List.dropWhile p (xs ++ t)).length ≤ (xs ++ t).length :=
        (List.dropWhile_sublist p).length_le
      have hlen := congrArg List.length hl
      simp only [List.length_cons] at hlen
      omega
    simp [List.dropWhile_cons, hx]

/-- The strip model written with Mathlib's right-strip. -/
theorem pyStrip_eq (s : String) :
    pyStrip s = ⟨List.rdropWhile pyIsSpace (s.data.dropWhile pyIsSpace)⟩ := rfl

/-- Python `strip` is idempotent. -/
theorem pyStrip_pyStrip (s : String) : pyStrip (pyStrip s) = pyStrip s := by
  have hA : (s.data.dropWhile pyIsSpace).dropWhile pyIsSpace
      = s.data.dropWhile pyIsSpace := List.dropWhile_idempotent _ _
  have hX : (List.rdropWhile pyIsSpace (s.data.dropWhile pyIsSpace)).dropWhile pyIsSpace
      = List.rdropWhile pyIsSpace (s.data.dropWhile pyIsSpace) :=
    dropWhile_eq_self_of_prefix hA (List.rdropWhile_prefix _ _)
  rw [pyStrip_eq, pyStrip_eq]
  show (⟨List.rdropWhile pyIsSpace
      ((List.rdropWhile pyIsSpace (s.data.dropWhile pyIsSpace)).dropWhile pyIsSpace)⟩ : String)
    = ⟨List.rdropWhile pyIsSpace (s.data.dropWhile pyIsSpace)⟩
  rw [hX, List.rdropWhile_idempotent]

/-- A row the bs4 tier extracts successfully carries no enumerated value
outside its closed set. -/
theorem bs4_ok_enums (cik acc : String) (r : InfoTable) (v : HoldingRowRaw)
    (hx : extractRowBs4 cik acc r = Except.ok v) : badEnum r = false := by
  obtain ⟨nm, cu, tit, val, sa, sat, dis, pc, va⟩ := r
  unfold extractRowBs4 at hx
  simp only [bind, Except.bind, pure, Except.pure, throw, throwThe, MonadExceptOf.throw,
    reqText, reqInt] at hx
  repeat' (first
    | exact Except.noConfusion hx
    | split at hx)
  all_goals cases sat
  all_goals cases dis
  all_goals try cases pc
  all_goals simp_all [badEnum, pyStrip_pyStrip]
  all_goals tauto

/-- Upper-casing preserves emptiness. -/
theorem pyUpper_eq_empty_iff (s : String) : pyUpper s = "" ↔ s = "" := by
  constructor
  · intro h
    have hd : s.data.map Char.toUpper = [] := congrArg String.data h
    have hnil : s.data = [] := List.map_eq_nil.mp hd
    cases s
    simp_all
  · intro h
    rw [h]
    rfl

set_option maxHeartbeats 2000000 in
/-- A row the lxml tier extracts successfully carries no enumerated value
outside its closed set. -/
theorem lxml_ok_enums (cik acc : String) (r : InfoTable) (v : HoldingRowRaw)
    (hx : extractRowLxml cik acc r = Except.ok v) : badEnum r = false := by
  obtain ⟨nm, cu, tit, val, sa, sat, dis, pc, va⟩ := r
  unfold extractRowLxml at hx
  simp only [bind, Except.bind, pure, Except.pure, throw, throwThe, MonadExceptOf.throw,
    lxmlInt, lxmlIntOrZero, xmlStr] at hx
  repeat' (first
    | exact Except.noConfusion hx
    | split at hx)
  all_goals try cases sat
  all_goals try cases dis
  all_goals try cases pc
  all_goals simp_all [badEnum, pyStrip_pyStrip, pyUpper_eq_empty_iff]
  all_goals tauto

/-- A document containing a bad-enum row fails bs4 extraction wholesale. -/
theorem gather_bs4_err_of_mem :
    ∀ (doc : List InfoTable) (cik acc : String) (r : InfoTable),
      r ∈ doc → badEnum r = true →
      ∃ e, gather_data_with_bs4 doc cik acc = Except.error e := by
  intro doc
  induction doc with
  | nil => intro cik acc r hmem hbad; exact absurd hmem (List.not_mem_nil r)
  | cons r0 rest ih =>
    intro cik acc r hmem hbad
    cases hx : extractRowBs4 cik acc r0 with
    | error e =>
      exact ⟨e, by simp [gather_data_with_bs4, hx, bind, Except.bind]⟩
    | ok w =>
      rcases List.mem_cons.mp hmem with h | h
      · rw [h] at hbad
        rw [bs4_ok_enums cik acc r0 w hx] at hbad
        exact Bool.noConfusion hbad
      · obtain ⟨e, he⟩ := ih cik acc r h hbad
        exact ⟨e, by simp [gather_data_with_bs4, hx, he, bind, Except.bind]⟩

/-- A document containing a bad-enum row fails lxml extraction wholesale. -/
theorem gather_lxml_err_of_mem :
    ∀ (doc : List InfoTable) (cik acc : String) (r : InfoTable),
      r ∈ doc → badEnum r = true →
      ∃ e, gather_holdings_using_lxml doc cik acc = Except.error e := by
  intro doc
  induction doc with
  | nil => intro cik acc r hmem hbad; exact absurd hmem (List.not_mem_nil r)
  | cons r0 rest ih =>
    intro cik acc r hmem hbad
    cases hx : extractRowLxml cik acc r0 with
    | error e =>
      exact ⟨e, by simp [gather_holdings_using_lxml, hx, bind, Except.bind]⟩
    | ok w =>
      rcases List.mem_cons.mp hmem with h | h
      · rw [h] at hbad
        rw [lxml_ok_enums cik acc r0 w hx] at hbad
        exact Bool.noConfusion hbad
      · obtain ⟨e, he⟩ := ih cik acc r h hbad
        exact ⟨e, by simp [gather_holdings_using_lxml, hx, he, bind, Except.bind]⟩

/-- The batch writer touches no `filings` rows. -/
theorem insert_holdings_batch_filings (db : Db) (hs : List HoldingRowRaw) :
    (insert_holdings_batch db hs).filings = db.filings := rfl

/-- The attachment loop touches no `filings` rows. -/
theorem processAttachments_filings (extract : Extractor) (cik acc : String) :
    ∀ (atts : List Attachment) (db : Db) (log : List String),
      (processAttachments extract cik acc db log atts).1.filings = db.filings := by
  intro atts
  induction atts with
  | nil => intro db log; rfl
  | cons att rest ih =>
    intro db log
    simp only [processAttachments]
    split
    · split
      · rfl
      · split
        · rfl
        · split
          · exact ih _ _
          · rw [ih, insert_holdings_batch_filings]
    · exact ih _ _

/-- A list of filing rows with no hit for a predicate filters to nothing. -/
theorem filter_len_zero_of_any_false {p : FilingRow → Bool} :
    ∀ l : List FilingRow, l.any p = false → (l.filter p).length = 0 := by
  intro l
  induction l with
  | nil => intro h; rfl
  | cons r t ih =>
    intro h
    simp only [List.any_cons, Bool.or_eq_false_iff] at h
    simp only [List.filter_cons, h.1, Bool.false_eq_true, if_false]
    exact ih h.2

/-- A store with no row for an accession number counts zero rows for it. -/
theorem countAcc_eq_zero {db : Db} {acc : String}
    (h : filing_exists db acc = false) : countAcc db acc = 0 :=
  filter_len_zero_of_any_false db.filings h

/-- A sighting whose accession number is in the seen-set is a no-op. -/
theorem processOne_skip_seen (extract : Extractor) (relevant : List String)
    (st : LoopState) (f : FilingDesc)
    (hcik : relevant.contains f.cik = true)
    (hseen : st.seen.contains f.accession_number = true) :
    processOne extract relevant st f = (st, none) := by
  have h1 : f.cik ∈ relevant := by simpa using hcik
  have h2 : f.accession_number ∈ st.seen := by simpa using hseen
  simp [processOne, h1, h2]

/-- A sighting whose accession number already has a `filings` row only adds
the accession number to the seen-set. -/
theorem processOne_skip_durable (extract : Extractor) (relevant : List String)
    (st : LoopState) (f : FilingDesc)
    (hcik : relevant.contains f.cik = true)
    (hseen : st.seen.contains f.accession_number = false)
    (hex : filing_exists st.db f.accession_number = true) :
    processOne extract relevant st f
      = ({ st with seen := st.seen ++ [f.accession_number] }, none) := by
  have h1 : f.cik ∈ relevant := by simpa using hcik
  have h2 : f.accession_number ∉ st.seen := by simpa using hseen
  simp [processOne, h1, h2, hex]

/-- An admitted sighting with a known manager runs the insert and the
attachment loop. -/
theorem processOne_admitted (extract : Extractor) (relevant : List String)
    (st : LoopState) (f : FilingDesc) (mid : Nat)
    (hcik : relevant.contains f.cik = true)
    (hseen : st.seen.contains f.accession_number = false)
    (hex : filing_exists st.db f.accession_number = false)
    (hmgr : getManagerByCik st.db f.cik = some mid) :
    processOne extract relevant st f
      = (match (processAttachments extract f.cik f.accession_number
            (insert_filing st.db mid f.accession_number f.form).1 [] f.attachments).2.2 with
         | some e =>
           ({ st with
               db := (processAttachments extract f.cik f.accession_number
                 (insert_filing st.db mid f.accession_number f.form).1 [] f.attachments).1
               extracted := st.extracted ++ (processAttachments extract f.cik f.accession_number
                 (insert_filing st.db mid f.accession_number f.form).1 [] f.attachments).2.1 },
            some e)
         | none =>
           ({ st with
               db := (processAttachments extract f.cik f.accession_number
                 (insert_filing st.db mid f.accession_number f.form).1 [] f.attachments).1
               seen := st.seen ++ [f.accession_number]
               extracted := st.extracted ++ (processAttachments extract f.cik f.accession_number
                 (insert_filing st.db mid f.accession_number f.form).1 [] f.attachments).2.1
               notified := st.notified ++ [f.accession_number] }, none)) := by
  have h1 : f.cik ∈ relevant := by simpa using hcik
  have h2 : f.accession_number ∉ st.seen := by simpa using hseen
  simp [processOne, h1, h2, hex, hmgr]

/-- The empty batch is a no-op. -/
theorem process_filings_nil (extract : Extractor) (relevant : List String)
    (st : LoopState) : process_filings extract relevant st [] = (st, none) := rfl

/-- A successful first sighting steps the loop to the next descriptor. -/
theorem process_filings_cons_ok (extract : Extractor) (relevant : List String)
    (st : LoopState) (f : FilingDesc) (st2 : LoopState) (rest : List FilingDesc)
    (h : processOne extract relevant st f = (st2, none)) :
    process_filings extract relevant st (f :: rest)
      = process_filings extract relevant st2 rest := by
  simp only [process_filings, h]

/-- A raising sighting aborts the batch. -/
theorem process_filings_cons_err (extract : Extractor) (relevant : List String)
    (st : LoopState) (f : FilingDesc) (st2 : LoopState) (e : String)
    (rest : List FilingDesc)
    (h : processOne extract relevant st f = (st2, some e)) :
    process_filings extract relevant st (f :: rest) = (st2, some e) := by
  simp only [process_filings, h]

/-- Claim C1.  Processing a filing descriptor a second time with the same
accession number produces no second `filings` row and no duplicate holdings:
after a first admitted, successfully processed sighting, running the batch
with the descriptor repeated equals running it once (the second sighting is
gated to AlreadyProcessed by the in-process seen-set before any extraction
runs), the store holds exactly one row for the accession number, and a fresh
run (empty seen-set, as after a restart) on the resulting store leaves the
store untouched and invokes no extraction, gated by the durable
`filing_exists` check. -/
theorem c1_duplicate_accession_idempotent
    (extract : Extractor) (db0 : Db) (seen0 relevant : List String)
    (f : FilingDesc) (mid : Nat)
    (hcik : relevant.contains f.cik = true)
    (hseen : seen0.contains f.accession_number = false)
    (hex : filing_exists db0 f.accession_number = false)
    (hmgr : getManagerByCik db0 f.cik = some mid)
    (hrun : (process_filings extract relevant ⟨db0, seen0, [], []⟩ [f]).2 = none) :
    process_filings extract relevant ⟨db0, seen0, [], []⟩ [f, f]
        = process_filings extract relevant ⟨db0, seen0, [], []⟩ [f]
    ∧ gateOf (process_filings extract relevant ⟨db0, seen0, [], []⟩ [f]).1.db
        (process_filings extract relevant ⟨db0, seen0, [], []⟩ [f]).1.seen relevant f
        = GateResult.alreadyProcessed
    ∧ countAcc (process_filings extract relevant ⟨db0, seen0, [], []⟩ [f, f]).1.db
        f.accession_number = 1
    ∧ (process_filings extract relevant
          ⟨(process_filings extract relevant ⟨db0, seen0, [], []⟩ [f]).1.db, [], [], []⟩
          [f]).1.db
        = (process_filings extract relevant ⟨db0, seen0, [], []⟩ [f]).1.db
    ∧ (process_filings extract relevant
          ⟨(process_filings extract relevant ⟨db0, seen0, [], []⟩ [f]).1.db, [], [], []⟩
          [f]).1.extracted
        = [] := by
  have hadm := processOne_admitted extract relevant ⟨db0, seen0, [], []⟩ f mid hcik hseen hex hmgr
  cases hres : (processAttachments extract f.cik f.accession_number
      (insert_filing db0 mid f.accession_number f.form).1 [] f.attachments).2.2 with
  | some e =>
    exfalso
    rw [hres] at hadm
    have hadm2 : processOne extract relevant ⟨db0, seen0, [], []⟩ f
        = ({ db := (processAttachments extract f.cik f.accession_number
                (insert_filing db0 mid f.accession_number f.form).1 [] f.attachments).1
             seen := seen0
             extracted := (processAttachments extract f.cik f.accession_number
                (insert_filing db0 mid f.accession_number f.form).1 [] f.attachments).2.1
             notified := [] }, some e) := by rw [hadm]; rfl
    have hbad := process_filings_cons_err extract relevant _ f _ e [] hadm2
    rw [hbad] at hrun
    exact Option.noConfusion hrun
  | none =>
    rw [hres] at hadm
    have hadm2 : processOne extract relevant ⟨db0, seen0, [], []⟩ f
        = ({ db := (processAttachments extract f.cik f.accession_number
                (insert_filing db0 mid f.accession_number f.form).1 [] f.attachments).1
             seen := seen0 ++ [f.accession_number]
             extracted := (processAttachments extract f.cik f.accession_number
                (insert_filing db0 mid f.accession_number f.form).1 [] f.attachments).2.1
             notified := [f.accession_number] }, none) := by rw [hadm]; rfl
    have hfil : (processAttachments extract f.cik f.accession_number
        (insert_filing db0 mid f.accession_number f.form).1 [] f.attachments).1.filings
        = db0.filings ++ [⟨db0.nextFilingId, mid, f.accession_number, f.form⟩] :=
      processAttachments_filings extract f.cik f.accession_number f.attachments _ []
    have h1 : process_filings extract relevant ⟨db0, seen0, [], []⟩ [f]
        = ({ db := (processAttachments extract f.cik f.accession_number
                (insert_filing db0 mid f.accession_number f.form).1 [] f.attachments).1
             seen := seen0 ++ [f.accession_number]
             extracted := (processAttachments extract f.cik f.accession_number
                (insert_filing db0 mid f.accession_number f.form).1 [] f.attachments).2.1
             notified := [f.accession_number] }, none) := by
      rw [process_filings_cons_ok extract relevant _ f _ [] hadm2, process_filings_nil]
    have hseen2 : (seen0 ++ [f.accession_number]).contains f.accession_number = true := by
      simp
    have hskip := processOne_skip_seen extract relevant
      ({ db := (processAttachments extract f.cik f.accession_number
            (insert_filing db0 mid f.accession_number f.form).1 [] f.attachments).1
         seen := seen0 ++ [f.accession_number]
         extracted := (processAttachments extract f.cik f.accession_number
            (insert_filing db0 mid f.accession_number f.form).1 [] f.attachments).2.1
         notified := [f.accession_number] }) f hcik hseen2
    have h2 : process_filings extract relevant ⟨db0, seen0, [], []⟩ [f, f]
        = ({ db := (processAttachments extract f.cik f.accession_number
                (insert_filing db0 mid f.accession_number f.form).1 [] f.attachments).1
             seen := seen0 ++ [f.accession_number]
             extracted := (processAttachments extract f.cik f.accession_number
                (insert_filing db0 mid f.accession_number f.form).1 [] f.attachments).2.1
             notified := [f.accession_number] }, none) := by
      rw [process_filings_cons_ok extract relevant _ f _ [f] hadm2,
        process_filings_cons_ok extract relevant _ f _ [] hskip, process_filings_nil]
    have hex3 : filing_exists (processAttachments extract f.cik f.accession_number
        (insert_filing db0 mid f.accession_number f.form).1 [] f.attachments).1
        f.accession_number = true := by
      unfold filing_exists
      rw [hfil]
      simp
    refine ⟨h2.trans h1.symm, ?_, ?_, ?_, ?_⟩
    · rw [h1]
      have hm1 : f.cik ∈ relevant := by simpa using hcik
      have hm2 : f.accession_number ∈ seen0 ++ [f.accession_number] := by simp
      simp [gateOf, hm1, hm2]
    · rw [h2]
      unfold countAcc
      rw [hfil, List.filter_append, List.length_append,
        filter_len_zero_of_any_false db0.filings hex]
      simp
    · rw [h1]
      have hskip3 := processOne_skip_durable extract relevant
        ⟨(processAttachments extract f.cik f.accession_number
            (insert_filing db0 mid f.accession_number f.form).1 [] f.attachments).1,
          [], [], []⟩ f hcik rfl hex3
      rw [process_filings_cons_ok extract relevant _ f _ [] hskip3, process_filings_nil]
    · rw [h1]
      have hskip3 := processOne_skip_durable extract relevant
        ⟨(processAttachments extract f.cik f.accession_number
            (insert_filing db0 mid f.accession_number f.form).1 [] f.attachments).1,
          [], [], []⟩ f hcik rfl hex3
      rw [process_filings_cons_ok extract relevant _ f _ [] hskip3, process_filings_nil]

/-- Witness for C1: the concrete spec-section-8 scenario filing, processed
against the base store with the bs4 extractor, satisfies every hypothesis of
the idempotence theorem. -/
theorem c1_duplicate_accession_idempotent_witness :
    (([] : List String).contains acmeFiling.accession_number = false)
    ∧ filing_exists baseDb acmeFiling.accession_number = false
    ∧ relOne.contains acmeFiling.cik = true
    ∧ getManagerByCik baseDb acmeFiling.cik = some 7
    ∧ ((process_filings gather_data_with_bs4 relOne ⟨baseDb, [], [], []⟩ [acmeFiling]).2 = none)
    ∧ (process_filings gather_data_with_bs4 relOne ⟨baseDb, [], [], []⟩ [acmeFiling, acmeFiling]
        = process_filings gather_data_with_bs4 relOne ⟨baseDb, [], [], []⟩ [acmeFiling]
      ∧ gateOf (process_filings gather_data_with_bs4 relOne ⟨baseDb, [], [], []⟩ [acmeFiling]).1.db
          (process_filings gather_data_with_bs4 relOne ⟨baseDb, [], [], []⟩ [acmeFiling]).1.seen
          relOne acmeFiling = GateResult.alreadyProcessed
      ∧ countAcc (process_filings gather_data_with_bs4 relOne
          ⟨baseDb, [], [], []⟩ [acmeFiling, acmeFiling]).1.db acmeFiling.accession_number = 1
      ∧ (process_filings gather_data_with_bs4 relOne
            ⟨(process_filings gather_data_with_bs4 relOne ⟨baseDb, [], [], []⟩ [acmeFiling]).1.db,
              [], [], []⟩ [acmeFiling]).1.db
          = (process_filings gather_data_with_bs4 relOne ⟨baseDb, [], [], []⟩ [acmeFiling]).1.db
      ∧ (process_filings gather_data_with_bs4 relOne
            ⟨(process_filings gather_data_with_bs4 relOne ⟨baseDb, [], [], []⟩ [acmeFiling]).1.db,
              [], [], []⟩ [acmeFiling]).1.extracted
          = []) :=
  ⟨rfl, rfl, rfl, rfl, rfl,
    c1_duplicate_accession_idempotent gather_data_with_bs4 baseDb [] relOne acmeFiling 7
      rfl rfl rfl rfl rfl⟩

/-- Claim C6.  The claim says an info-table element missing the
voting-authority sub-element yields sole=shared=none=0 rather than an error,
and a missing put/call yields NONE.  The code contradicts the first half:
both extractor tiers raise on a missing voting-authority element — the bs4
tier with an AttributeError (calling `.find` on the `None` returned for the
absent element, utils.py line 197), the lxml tier with a ValueError (the
`or 0` of lines 272-303 sits outside `float`, so `float('')` is still
evaluated).  The put/call half does hold: both tiers default an absent
putCall to NONE. -/
theorem c6_missing_voting_authority_raises :
    gather_data_with_bs4 [noVoteTable] "0000000111" "0001-22-000001"
        = Except.error "AttributeError: votingAuthority"
    ∧ gather_holdings_using_lxml [noVoteTable] "0000000111" "0001-22-000001"
        = Except.error "ValueError: could not convert string to float: "
    ∧ (gather_data_with_bs4 [acmeTable] "0000000111" "0001-22-000001").toOption.map
        (fun rs => rs.map (fun h => h.put_call)) = some ["NONE"]
    ∧ (gather_holdings_using_lxml [acmeTable] "0000000111" "0001-22-000001").toOption.map
        (fun rs => rs.map (fun h => h.put_call)) = some ["NONE"] := by
  refine ⟨rfl, rfl, rfl, rfl⟩

/-- Claim C2.  The claim says a validation failure in one filing's
attachment leaves that filing unmarked and the loop continues to the next
filing, never exiting the process.  Evaluating the embedded `Application.run`
on a batch holding a malformed filing followed by a well-formed one, plus a
second poll cycle: the ValueError propagates out of `process_filings`
(main.py has no per-filing handler), the `try` wrapping the whole `while`
loop (line 213) catches it, and the run ends — the filing is indeed not
marked seen, but the next filing in the same batch is never processed,
extraction is never invoked for it, the second cycle never runs, and the
abandoned filing's row stays committed. -/
theorem c2_single_filing_failure_aborts_run :
    (applicationRun gather_data_with_bs4 ["111"] baseDb
        [⟨1, ["111"], [badFiling, goodFiling], []⟩, ⟨2, ["111"], [goodFiling], []⟩]).2
      = some "ValueError: Invalid share type: XYZ"
    ∧ (applicationRun gather_data_with_bs4 ["111"] baseDb
        [⟨1, ["111"], [badFiling, goodFiling], []⟩, ⟨2, ["111"], [goodFiling], []⟩]).1.loop.seen
      = []
    ∧ (applicationRun gather_data_with_bs4 ["111"] baseDb
        [⟨1, ["111"], [badFiling, goodFiling], []⟩, ⟨2, ["111"], [goodFiling], []⟩]).1.loop.extracted
      = [badFiling.accession_number]
    ∧ filing_exists (applicationRun gather_data_with_bs4 ["111"] baseDb
        [⟨1, ["111"], [badFiling, goodFiling], []⟩, ⟨2, ["111"], [goodFiling], []⟩]).1.loop.db
        goodFiling.accession_number = false
    ∧ filing_exists (applicationRun gather_data_with_bs4 ["111"] baseDb
        [⟨1, ["111"], [badFiling, goodFiling], []⟩, ⟨2, ["111"], [goodFiling], []⟩]).1.loop.db
        badFiling.accession_number = true
    ∧ (applicationRun gather_data_with_bs4 ["111"] baseDb
        [⟨1, ["111"], [badFiling, goodFiling], []⟩, ⟨2, ["111"], [goodFiling], []⟩]).1.loop.notified
      = [] := by
  refine ⟨rfl, rfl, rfl, rfl, rfl, rfl⟩

/-- Claim C4.  The claim says the gate's admitted identifier set on the next
poll cycle equals the new watch-list file content.  The code computes
`relevant_ciks = set(state['current_ciks'])` once before the loop (main.py
line 204) and passes that frozen set to `process_filings` every cycle, so a
mid-run file change updates `state['current_ciks']` (the reload machinery
does fire) but never the gate: evaluating one cycle after the file gained
entity 222, the reload is visible in `currentCiks`, yet the filing from 222
is skipped as irrelevant under the startup snapshot — while under the new
file content the gate would admit it, and its manager exists. -/
theorem c4_frozen_watchlist_snapshot :
    (applicationRun gather_data_with_bs4 ["111"] baseDb
        [⟨1, ["111", "222"], [cik222Filing], []⟩]).2 = none
    ∧ (applicationRun gather_data_with_bs4 ["111"] baseDb
        [⟨1, ["111", "222"], [cik222Filing], []⟩]).1.currentCiks
      = ["0000000111", "0000000222"]
    ∧ filing_exists (applicationRun gather_data_with_bs4 ["111"] baseDb
        [⟨1, ["111", "222"], [cik222Filing], []⟩]).1.loop.db
        cik222Filing.accession_number = false
    ∧ (applicationRun gather_data_with_bs4 ["111"] baseDb
        [⟨1, ["111", "222"], [cik222Filing], []⟩]).1.loop.extracted = []
    ∧ gateOf baseDb [] (reload_ciks ["111"]) cik222Filing = GateResult.irrelevant
    ∧ gateOf baseDb [] (reload_ciks ["111", "222"]) cik222Filing = GateResult.admitted
    ∧ getManagerByCik baseDb cik222Filing.cik = some 8 := by
  refine ⟨rfl, rfl, rfl, rfl, rfl, rfl, rfl⟩


/-- Claim C5.  A document containing an enumerated field value outside its
closed set — a present share type outside SH/PRN, a present investment
discretion outside SOLE/DFND/OTR, or a present non-blank put/call outside
NONE/PUT/CALL — fails extraction with an error for the whole document in
both extractor tiers, producing zero rows; rows are never silently dropped
per-row. -/
theorem c5_bad_enum_fails_whole_document
    (doc : List InfoTable) (cik acc : String) (r : InfoTable)
    (hmem : r ∈ doc) (hbad : badEnum r = true) :
    (∃ e, gather_data_with_bs4 doc cik acc = Except.error e)
    ∧ (∃ e, gather_holdings_using_lxml doc cik acc = Except.error e) :=
  ⟨gather_bs4_err_of_mem doc cik acc r hmem hbad,
   gather_lxml_err_of_mem doc cik acc r hmem hbad⟩

/-- Witness for C5: the malformed share type XYZ in a two-row document (one
good row first) makes both tiers fail the whole document. -/
theorem c5_bad_enum_fails_whole_document_witness :
    badTypeTable ∈ [acmeTable, badTypeTable]
    ∧ badEnum badTypeTable = true
    ∧ ((∃ e, gather_data_with_bs4 [acmeTable, badTypeTable] "0000000111" "a" = Except.error e)
       ∧ (∃ e, gather_holdings_using_lxml [acmeTable, badTypeTable] "0000000111" "a"
           = Except.error e)) :=
  ⟨by simp, by decide,
   c5_bad_enum_fails_whole_document [acmeTable, badTypeTable] "0000000111" "a" badTypeTable
     (by simp) (by decide)⟩


/-- Truncation toward zero preserves non-negativity. -/
theorem floatTrunc_nonneg {p : FloatVal} (h : 0 ≤ p.num) : 0 ≤ floatTrunc p := by
  unfold floatTrunc
  rw [if_pos h]
  exact Int.ofNat_nonneg _

/-- A non-negative numeric element parses in the bs4 tier to a non-negative
integer. -/
theorem reqInt_of_nonneg {o : Option String} (tag : String) (h : nonnegNum o = true) :
    ∃ z, reqInt o tag = Except.ok z ∧ 0 ≤ z := by
  unfold nonnegNum at h
  cases o with
  | none => exact Bool.noConfusion h
  | some t =>
    have h2 : (match pyFloat (pyStrip t) with
        | some q => decide (0 ≤ q.num)
        | none => false) = true := h
    cases hq : pyFloat (pyStrip t) with
    | none => rw [hq] at h2; exact Bool.noConfusion h2
    | some q =>
      rw [hq] at h2
      refine ⟨floatTrunc q, ?_, floatTrunc_nonneg (of_decide_eq_true h2)⟩
      simp [reqInt, hq]

/-- A schema-valid row extracts successfully in the bs4 tier with
non-negative numeric fields. -/
theorem bs4_ok_of_valid (cik acc : String) (r : InfoTable) (hv : validInfoTable r = true) :
    ∃ h, extractRowBs4 cik acc r = Except.ok h
      ∧ 0 ≤ h.value ∧ 0 ≤ h.shares_amount ∧ 0 ≤ h.sole ∧ 0 ≤ h.shared ∧ 0 ≤ h.noneCnt := by
  obtain ⟨nm, cu, tit, val, sa, sat, dis, pc, va⟩ := r
  simp only [validInfoTable, Bool.and_eq_true] at hv
  obtain ⟨⟨⟨⟨⟨⟨⟨⟨hnm, hcu⟩, htit⟩, hval⟩, hsa⟩, hsat⟩, hdis⟩, hpc⟩, hva⟩ := hv
  obtain ⟨nmv, rfl⟩ := Option.isSome_iff_exists.mp hnm
  obtain ⟨cuv, rfl⟩ := Option.isSome_iff_exists.mp hcu
  obtain ⟨titv, rfl⟩ := Option.isSome_iff_exists.mp htit
  obtain ⟨zval, hzval, hzvalnn⟩ := reqInt_of_nonneg "value" hval
  obtain ⟨zsa, hzsa, hzsann⟩ := reqInt_of_nonneg "sshPrnamt" hsa
  cases sat with
  | none => exact Bool.noConfusion hsat
  | some satv =>
  cases dis with
  | none => exact Bool.noConfusion hdis
  | some disv =>
  cases va with
  | none => exact Bool.noConfusion hva
  | some vav =>
  simp only [Bool.and_eq_true] at hva
  obtain ⟨⟨hso, hsh⟩, hno⟩ := hva
  obtain ⟨zso, hzso, hzsonn⟩ := reqInt_of_nonneg "Sole" hso
  obtain ⟨zsh, hzsh, hzshnn⟩ := reqInt_of_nonneg "Shared" hsh
  obtain ⟨zno, hzno, hzonn⟩ := reqInt_of_nonneg "None" hno
  have hsat2 : pyUpper (pyStrip satv) ∈ (["SH", "PRN"] : List String) := by simpa using hsat
  have hdis2 : pyUpper (pyStrip disv) ∈ (["SOLE", "DFND", "OTR"] : List String) := by
    simpa using hdis
  cases pc with
  | none =>
    have hx : extractRowBs4 cik acc
        ⟨some nmv, some cuv, some titv, val, sa, some satv, some disv, none, some vav⟩
        = Except.ok
        { cik := cik, accession_number := acc, shares_amount := zsa, value := zval
          title_of_class := pyStrip titv, share_type := pyUpper (pyStrip satv)
          investment_discretion := pyUpper (pyStrip disv), put_call := "NONE"
          sole := zso, shared := zsh, noneCnt := zno
          name_of_issuer := pyStrip nmv, cusip := pyStrip cuv } := by
      simp [extractRowBs4, bind, Except.bind, reqText, hzval, hzsa, hzso, hzsh, hzno,
        hsat2, hdis2, throw, throwThe, MonadExceptOf.throw, pure, Except.pure]
      all_goals decide
    exact ⟨_, hx, hzvalnn, hzsann, hzsonn, hzshnn, hzonn⟩
  | some pcv =>
    simp only [Bool.and_eq_true] at hpc
    have hpc2 : pyUpper (pyStrip pcv) ∈ (["NONE", "PUT", "CALL"] : List String) := by
      simpa using hpc.2
    have hx : extractRowBs4 cik acc
        ⟨some nmv, some cuv, some titv, val, sa, some satv, some disv, some pcv, some vav⟩
        = Except.ok
        { cik := cik, accession_number := acc, shares_amount := zsa, value := zval
          title_of_class := pyStrip titv, share_type := pyUpper (pyStrip satv)
          investment_discretion := pyUpper (pyStrip disv), put_call := pyStrip pcv
          sole := zso, shared := zsh, noneCnt := zno
          name_of_issuer := pyStrip nmv, cusip := pyStrip cuv } := by
      simp [extractRowBs4, bind, Except.bind, reqText, hzval, hzsa, hzso, hzsh, hzno,
        hsat2, hdis2, pyStrip_pyStrip, hpc2, throw, throwThe, MonadExceptOf.throw,
        pure, Except.pure]
    exact ⟨_, hx, hzvalnn, hzsann, hzsonn, hzshnn, hzonn⟩

/-- The post-conversion `or 0` preserves non-negativity. -/
theorem pyOrZeroInt_nonneg {n : Int} (h : 0 ≤ n) : 0 ≤ pyOrZeroInt n := by
  unfold pyOrZeroInt
  split
  · exact le_refl 0
  · exact h

/-- A non-negative numeric element parses in the lxml tier to a non-negative
integer. -/
theorem lxmlInt_of_nonneg {o : Option String} (h : nonnegNum o = true) :
    ∃ z, lxmlInt o = Except.ok z ∧ 0 ≤ z := by
  unfold nonnegNum at h
  cases o with
  | none => exact Bool.noConfusion h
  | some t =>
    have h2 : (match pyFloat (pyStrip t) with
        | some q => decide (0 ≤ q.num)
        | none => false) = true := h
    cases hq : pyFloat (pyStrip t) with
    | none => rw [hq] at h2; exact Bool.noConfusion h2
    | some q =>
      rw [hq] at h2
      refine ⟨floatTrunc q, ?_, floatTrunc_nonneg (of_decide_eq_true h2)⟩
      simp [lxmlInt, xmlStr, hq]

/-- Same for the lxml share-amount field with its inner `or 0`. -/
theorem lxmlIntOrZero_of_nonneg {o : Option String} (h : nonnegNum o = true) :
    ∃ z, lxmlIntOrZero o = Except.ok z ∧ 0 ≤ z := by
  unfold nonnegNum at h
  cases o with
  | none => exact Bool.noConfusion h
  | some t =>
    have h2 : (match pyFloat (pyStrip t) with
        | some q => decide (0 ≤ q.num)
        | none => false) = true := h
    cases hq : pyFloat (pyStrip t) with
    | none => rw [hq] at h2; exact Bool.noConfusion h2
    | some q =>
      rw [hq] at h2
      have hne : pyStrip t ≠ "" := by
        intro he
        rw [he] at hq
        exact Option.noConfusion hq
      refine ⟨floatTrunc q, ?_, floatTrunc_nonneg (of_decide_eq_true h2)⟩
      simp [lxmlIntOrZero, xmlStr, hq, hne]

/-- A schema-valid row extracts successfully in the lxml tier with
non-negative numeric fields. -/
theorem lxml_ok_of_valid (cik acc : String) (r : InfoTable) (hv : validInfoTable r = true) :
    ∃ h, extractRowLxml cik acc r = Except.ok h
      ∧ 0 ≤ h.value ∧ 0 ≤ h.shares_amount ∧ 0 ≤ h.sole ∧ 0 ≤ h.shared ∧ 0 ≤ h.noneCnt := by
  obtain ⟨nm, cu, tit, val, sa, sat, dis, pc, va⟩ := r
  simp only [validInfoTable, Bool.and_eq_true] at hv
  obtain ⟨⟨⟨⟨⟨⟨⟨⟨hnm, hcu⟩, htit⟩, hval⟩, hsa⟩, hsat⟩, hdis⟩, hpc⟩, hva⟩ := hv
  obtain ⟨zval, hzval, hzvalnn⟩ := lxmlInt_of_nonneg hval
  obtain ⟨zsa, hzsa, hzsann⟩ := lxmlIntOrZero_of_nonneg hsa
  cases sat with
  | none => exact Bool.noConfusion hsat
  | some satv =>
  cases dis with
  | none => exact Bool.noConfusion hdis
  | some disv =>
  cases va with
  | none => exact Bool.noConfusion hva
  | some vav =>
  simp only [Bool.and_eq_true] at hva
  obtain ⟨⟨hso, hsh⟩, hno⟩ := hva
  obtain ⟨zso, hzso, hzsonn⟩ := lxmlInt_of_nonneg hso
  obtain ⟨zsh, hzsh, hzshnn⟩ := lxmlInt_of_nonneg hsh
  obtain ⟨zno, hzno, hzonn⟩ := lxmlInt_of_nonneg hno
  have hsat2 : pyUpper (pyStrip satv) ∈ (["SH", "PRN"] : List String) := by simpa using hsat
  have hdis2 : pyUpper (pyStrip disv) ∈ (["SOLE", "DFND", "OTR"] : List String) := by
    simpa using hdis
  cases pc with
  | none =>
    have hempty : pyUpper (pyStrip "") = "" := rfl
    have hx : extractRowLxml cik acc
        ⟨nm, cu, tit, val, sa, some satv, some disv, none, some vav⟩
        = Except.ok
        { cik := cik, accession_number := acc, shares_amount := zsa, value := zval
          title_of_class := pyStrip (xmlStr tit), share_type := pyUpper (pyStrip satv)
          investment_discretion := pyUpper (pyStrip disv), put_call := "NONE"
          sole := pyOrZeroInt zso, shared := pyOrZeroInt zsh, noneCnt := pyOrZeroInt zno
          name_of_issuer := pyStrip (xmlStr nm), cusip := pyStrip (xmlStr cu) } := by
      simp [extractRowLxml, bind, Except.bind, hzval, hzsa, hzso, hzsh, hzno,
        hsat2, hdis2, throw, throwThe, MonadExceptOf.throw, pure, Except.pure, xmlStr,
        hempty]
    exact ⟨_, hx, hzvalnn, hzsann, pyOrZeroInt_nonneg hzsonn, pyOrZeroInt_nonneg hzshnn,
      pyOrZeroInt_nonneg hzonn⟩
  | some pcv =>
    simp only [Bool.and_eq_true] at hpc
    have hne : pyUpper (pyStrip pcv) ≠ "" := by
      intro he
      have := (pyUpper_eq_empty_iff (pyStrip pcv)).mp he
      exact (by simpa using hpc.1 : pyStrip pcv ≠ "") this
    have hpc2 : pyUpper (pyStrip pcv) ∈ (["NONE", "PUT", "CALL"] : List String) := by
      simpa using hpc.2
    have hx : extractRowLxml cik acc
        ⟨nm, cu, tit, val, sa, some satv, some disv, some pcv, some vav⟩
        = Except.ok
        { cik := cik, accession_number := acc, shares_amount := zsa, value := zval
          title_of_class := pyStrip (xmlStr tit), share_type := pyUpper (pyStrip satv)
          investment_discretion := pyUpper (pyStrip disv), put_call := pyUpper (pyStrip pcv)
          sole := pyOrZeroInt zso, shared := pyOrZeroInt zsh, noneCnt := pyOrZeroInt zno
          name_of_issuer := pyStrip (xmlStr nm), cusip := pyStrip (xmlStr cu) } := by
      simp [extractRowLxml, bind, Except.bind, hzval, hzsa, hzso, hzsh, hzno,
        hsat2, hdis2, hne, hpc2, throw, throwThe, MonadExceptOf.throw, pure, Except.pure,
        xmlStr]
    exact ⟨_, hx, hzvalnn, hzsann, pyOrZeroInt_nonneg hzsonn, pyOrZeroInt_nonneg hzshnn,
      pyOrZeroInt_nonneg hzonn⟩


/-- A fully schema-valid document extracts completely in the bs4 tier. -/
theorem gather_bs4_ok_of_valid :
    ∀ (doc : List InfoTable) (cik acc : String),
      (∀ r ∈ doc, validInfoTable r = true) →
      ∃ rows, gather_data_with_bs4 doc cik acc = Except.ok rows
        ∧ rows.length = doc.length
        ∧ ∀ h ∈ rows, 0 ≤ h.value ∧ 0 ≤ h.shares_amount
            ∧ 0 ≤ h.sole ∧ 0 ≤ h.shared ∧ 0 ≤ h.noneCnt := by
  intro doc
  induction doc with
  | nil => intro cik acc hv; exact ⟨[], rfl, rfl, by simp⟩
  | cons r0 rest ih =>
    intro cik acc hv
    obtain ⟨h0, hx, hb⟩ := bs4_ok_of_valid cik acc r0 (hv r0 (by simp))
    obtain ⟨rows, hr, hlen, hall⟩ := ih cik acc (fun r hmem => hv r (by simp [hmem]))
    refine ⟨h0 :: rows, ?_, ?_, ?_⟩
    · simp [gather_data_with_bs4, hx, hr, bind, Except.bind, pure, Except.pure]
    · simp [hlen]
    · intro h hmem
      rcases List.mem_cons.mp hmem with h1 | h1
      · rw [h1]; exact hb
      · exact hall h h1

/-- A fully schema-valid document extracts completely in the lxml tier. -/
theorem gather_lxml_ok_of_valid :
    ∀ (doc : List InfoTable) (cik acc : String),
      (∀ r ∈ doc, validInfoTable r = true) →
      ∃ rows, gather_holdings_using_lxml doc cik acc = Except.ok rows
        ∧ rows.length = doc.length
        ∧ ∀ h ∈ rows, 0 ≤ h.value ∧ 0 ≤ h.shares_amount
            ∧ 0 ≤ h.sole ∧ 0 ≤ h.shared ∧ 0 ≤ h.noneCnt := by
  intro doc
  induction doc with
  | nil => intro cik acc hv; exact ⟨[], rfl, rfl, by simp⟩
  | cons r0 rest ih =>
    intro cik acc hv
    obtain ⟨h0, hx, hb⟩ := lxml_ok_of_valid cik acc r0 (hv r0 (by simp))
    obtain ⟨rows, hr, hlen, hall⟩ := ih cik acc (fun r hmem => hv r (by simp [hmem]))
    refine ⟨h0 :: rows, ?_, ?_, ?_⟩
    · simp [gather_holdings_using_lxml, hx, hr, bind, Except.bind, pure, Except.pure]
    · simp [hlen]
    · intro h hmem
      rcases List.mem_cons.mp hmem with h1 | h1
      · rw [h1]; exact hb
      · exact hall h h1

/-- Claim C7.  For every XML document conforming to the information-table
schema, each extractor tier succeeds, its output row count equals the number
of info-table elements, and every numeric field of every output row (value,
shares or principal amount, voting sole, shared, none) is a non-negative
integer. -/
theorem c7_valid_schema_extraction
    (doc : List InfoTable) (cik acc : String)
    (hv : ∀ r ∈ doc, validInfoTable r = true) :
    (∃ rows, gather_data_with_bs4 doc cik acc = Except.ok rows
      ∧ rows.length = doc.length
      ∧ ∀ h ∈ rows, 0 ≤ h.value ∧ 0 ≤ h.shares_amount
          ∧ 0 ≤ h.sole ∧ 0 ≤ h.shared ∧ 0 ≤ h.noneCnt)
    ∧ (∃ rows, gather_holdings_using_lxml doc cik acc = Except.ok rows
      ∧ rows.length = doc.length
      ∧ ∀ h ∈ rows, 0 ≤ h.value ∧ 0 ≤ h.shares_amount
          ∧ 0 ≤ h.sole ∧ 0 ≤ h.shared ∧ 0 ≤ h.noneCnt) :=
  ⟨gather_bs4_ok_of_valid doc cik acc hv, gather_lxml_ok_of_valid doc cik acc hv⟩

/-- Witness for C7: the spec-section-8 one-row document is schema-valid and
both tiers extract exactly one row with non-negative numerics. -/
theorem c7_valid_schema_extraction_witness :
    (∀ r ∈ [acmeTable], validInfoTable r = true)
    ∧ ((∃ rows, gather_data_with_bs4 [acmeTable] "0000000111" "a" = Except.ok rows
        ∧ rows.length = [acmeTable].length
        ∧ ∀ h ∈ rows, 0 ≤ h.value ∧ 0 ≤ h.shares_amount
            ∧ 0 ≤ h.sole ∧ 0 ≤ h.shared ∧ 0 ≤ h.noneCnt)
      ∧ (∃ rows, gather_holdings_using_lxml [acmeTable] "0000000111" "a" = Except.ok rows
        ∧ rows.length = [acmeTable].length
        ∧ ∀ h ∈ rows, 0 ≤ h.value ∧ 0 ≤ h.shares_amount
            ∧ 0 ≤ h.sole ∧ 0 ≤ h.shared ∧ 0 ≤ h.noneCnt)) :=
  ⟨fun r hr => by rw [List.mem_singleton.mp hr]; decide,
   c7_valid_schema_extraction [acmeTable] "0000000111" "a"
     (fun r hr => by rw [List.mem_singleton.mp hr]; decide)⟩


/-- Every parsed float literal has a positive denominator. -/
theorem pyFloat_den_pos {s : String} {q : FloatVal} (h : pyFloat s = some q) : 0 < q.den := by
  simp only [pyFloat] at h
  repeat' split at h
  all_goals first
    | exact Option.noConfusion h
    | (obtain rfl := (Option.some.injEq _ _).mp h; norm_num)
    | (obtain rfl := (Option.some.injEq _ _).mp h
       exact pow_pos (by norm_num) _)

/-- On a non-negative value, truncation is the floor: at most the value and
within one below it. -/
theorem floatTrunc_bounds_nonneg (q : FloatVal) (hden : 0 < q.den) (hnum : 0 ≤ q.num) :
    ((floatTrunc q : Int) : Rat) ≤ q.toRat ∧ q.toRat < floatTrunc q + 1 := by
  have hcast : ((q.num.toNat : Nat) : Rat) = ((q.num : Int) : Rat) := by
    exact_mod_cast Int.toNat_of_nonneg hnum
  have hz : floatTrunc q = ((q.num.toNat / q.den : Nat) : Int) := by
    unfold floatTrunc
    rw [if_pos hnum]
  have hq : q.toRat = ((q.num.toNat : Nat) : Rat) / ((q.den : Nat) : Rat) := by
    unfold FloatVal.toRat
    rw [hcast]
  have hdr : (0 : Rat) < (q.den : Rat) := by exact_mod_cast hden
  constructor
  · rw [hz, hq, le_div_iff hdr]
    have hle := Nat.div_mul_le_self q.num.toNat q.den
    exact_mod_cast hle
  · rw [hz, hq, div_lt_iff hdr]
    have h1 : q.den * (q.num.toNat / q.den) + q.num.toNat % q.den = q.num.toNat :=
      Nat.div_add_mod _ _
    have h2 : q.num.toNat % q.den < q.den := Nat.mod_lt _ hden
    have h3 : q.num.toNat < (q.num.toNat / q.den + 1) * q.den := by
      calc q.num.toNat = q.den * (q.num.toNat / q.den) + q.num.toNat % q.den := h1.symm
        _ < q.den * (q.num.toNat / q.den) + q.den := by omega
        _ = (q.num.toNat / q.den + 1) * q.den := by ring
    push_cast
    exact_mod_cast h3

/-- On a negative value, truncation is the negated truncation of the
negation. -/
theorem floatTrunc_neg_eq (q : FloatVal) (hnum : q.num < 0) :
    floatTrunc q = -(floatTrunc ⟨-q.num, q.den⟩) := by
  unfold floatTrunc
  dsimp only
  split_ifs with h1 h2 <;> first | rfl | omega

/-- Negating the numerator negates the value. -/
theorem toRat_neg (q : FloatVal) : FloatVal.toRat ⟨-q.num, q.den⟩ = -q.toRat := by
  unfold FloatVal.toRat
  push_cast
  ring

/-- On a negative value, truncation is the ceiling: at least the value and
within one above it — truncation toward zero, not rounding or flooring. -/
theorem floatTrunc_bounds_neg (q : FloatVal) (hden : 0 < q.den) (hnum : q.num < 0) :
    q.toRat ≤ ((floatTrunc q : Int) : Rat) ∧ ((floatTrunc q : Int) : Rat) < q.toRat + 1 := by
  have hb := floatTrunc_bounds_nonneg ⟨-q.num, q.den⟩ hden (by dsimp only; omega)
  rw [toRat_neg] at hb
  rw [floatTrunc_neg_eq q hnum]
  push_cast at hb ⊢
  constructor
  · linarith [hb.1]
  · linarith [hb.2]

/-- Claim C8.  Every numeric field string the extractor accepts is parsed as
a float and truncated toward zero: both tiers return exactly the truncation
of the parsed value, which for non-negative values sits at most the value
and within one below it and for negative values at least the value and
within one above it (toward zero, never rounding), and the decimal string
1000.9 yields 1000, not 1001. -/
theorem c8_truncation_toward_zero
    (s tag : String) (q : FloatVal) (h : pyFloat (pyStrip s) = some q) :
    reqInt (some s) tag = Except.ok (floatTrunc q)
    ∧ lxmlInt (some s) = Except.ok (floatTrunc q)
    ∧ (0 ≤ q.toRat → (((floatTrunc q : Int) : Rat) ≤ q.toRat ∧ q.toRat < floatTrunc q + 1))
    ∧ (q.toRat < 0 →
        (q.toRat ≤ ((floatTrunc q : Int) : Rat) ∧ ((floatTrunc q : Int) : Rat) < q.toRat + 1))
    ∧ pyIntFloat "1000.9" = some 1000 := by
  have hden := pyFloat_den_pos h
  have hdr : (0 : Rat) < (q.den : Rat) := by exact_mod_cast hden
  refine ⟨by simp [reqInt, h], by simp [lxmlInt, xmlStr, h], ?_, ?_, by decide⟩
  · intro hq
    have hnum : 0 ≤ q.num := by
      by_contra hneg
      push_neg at hneg
      have hlt : q.toRat < 0 := by
        unfold FloatVal.toRat
        apply div_neg_of_neg_of_pos _ hdr
        exact_mod_cast hneg
      linarith
    exact floatTrunc_bounds_nonneg q hden hnum
  · intro hq
    have hnum : q.num < 0 := by
      by_contra hpos
      push_neg at hpos
      have hge : 0 ≤ q.toRat := by
        unfold FloatVal.toRat
        apply div_nonneg _ (le_of_lt hdr)
        exact_mod_cast hpos
      linarith
    exact floatTrunc_bounds_neg q hden hnum

/-- Witness for C8: the decimal string 1000.5 parses to 10005 over 10 and
satisfies the truncation characterization. -/
theorem c8_truncation_toward_zero_witness :
    pyFloat (pyStrip "1000.5") = some ⟨10005, 10⟩
    ∧ (reqInt (some "1000.5") "value" = Except.ok (floatTrunc ⟨10005, 10⟩)
      ∧ lxmlInt (some "1000.5") = Except.ok (floatTrunc ⟨10005, 10⟩)
      ∧ (0 ≤ FloatVal.toRat ⟨10005, 10⟩ →
          (((floatTrunc ⟨10005, 10⟩ : Int) : Rat) ≤ FloatVal.toRat ⟨10005, 10⟩
            ∧ FloatVal.toRat ⟨10005, 10⟩ < floatTrunc ⟨10005, 10⟩ + 1))
      ∧ (FloatVal.toRat ⟨10005, 10⟩ < 0 →
          (FloatVal.toRat ⟨10005, 10⟩ ≤ ((floatTrunc ⟨10005, 10⟩ : Int) : Rat)
            ∧ ((floatTrunc ⟨10005, 10⟩ : Int) : Rat) < FloatVal.toRat ⟨10005, 10⟩ + 1))
      ∧ pyIntFloat "1000.9" = some 1000) :=
  ⟨by decide, c8_truncation_toward_zero "1000.5" "value" ⟨10005, 10⟩ (by decide)⟩


/-- A search that misses the first list continues into the second. -/
theorem find?_append_of_none {α : Type} (p : α → Bool) {l1 l2 : List α}
    (h : l1.find? p = none) : (l1 ++ l2).find? p = l2.find? p := by
  induction l1 with
  | nil => rfl
  | cons a t1 ih =>
    simp only [List.cons_append]
    cases hp : p a with
    | true =>
      rw [List.find?_cons_of_pos _ hp] at h
      exact Option.noConfusion h
    | false =>
      rw [List.find?_cons_of_neg _ (by simp [hp])] at h
      rw [List.find?_cons_of_neg _ (by simp [hp])]
      exact ih h

/-- A resolvable lookup key has a matching row. -/
theorem lookup_any_of_map_some {t : LookupTable} {v : String} {i : Nat}
    (hv : lookupMap t v = some i) : t.rows.any (fun r => r.2 == v) = true := by
  unfold lookupMap at hv
  cases hf : t.rows.find? (fun r => r.2 == v) with
  | none => rw [hf] at hv; exact Option.noConfusion hv
  | some r =>
    have hp := List.find?_some hf
    have hm := List.mem_of_find?_eq_some hf
    exact List.any_eq_true.mpr ⟨r, hm, hp⟩

/-- An unresolvable lookup key has no matching row. -/
theorem lookup_any_of_map_none {t : LookupTable} {w : String}
    (hw : lookupMap t w = none) : t.rows.any (fun r => r.2 == w) = false := by
  unfold lookupMap at hw
  cases hf : t.rows.find? (fun r => r.2 == w) with
  | some r => rw [hf] at hw; exact Option.noConfusion hw
  | none =>
    rw [Bool.eq_false_iff]
    intro hany
    obtain ⟨r, hmem, hp⟩ := List.any_eq_true.mp hany
    exact List.find?_eq_none.mp hf r hmem hp

/-- A resolvable CUSIP has a matching issuer row. -/
theorem issuer_any_of_map_some {it : IssuerTable} {c : String} {j : Nat}
    (hc : issuerMap it c = some j) : it.rows.any (fun r => r.2.1 == c) = true := by
  unfold issuerMap at hc
  cases hf : it.rows.find? (fun r => r.2.1 == c) with
  | none => rw [hf] at hc; exact Option.noConfusion hc
  | some r =>
    have hp := List.find?_some hf
    have hm := List.mem_of_find?_eq_some hf
    exact List.any_eq_true.mpr ⟨r, hm, hp⟩

/-- An unresolvable CUSIP has no matching issuer row. -/
theorem issuer_any_of_map_none {it : IssuerTable} {d : String}
    (hd : issuerMap it d = none) : it.rows.any (fun r => r.2.1 == d) = false := by
  unfold issuerMap at hd
  cases hf : it.rows.find? (fun r => r.2.1 == d) with
  | some r => rw [hf] at hd; exact Option.noConfusion hd
  | none =>
    rw [Bool.eq_false_iff]
    intro hany
    obtain ⟨r, hmem, hp⟩ := List.any_eq_true.mp hany
    exact List.find?_eq_none.mp hf r hmem hp

/-- The upsert's name refresh leaves every row's surrogate id in place. -/
theorem issuer_upd_find_id (c nm2 : String) :
    ∀ (rows : List (Nat × String × String)),
      ((rows.map (fun r => if r.2.1 == c then (r.1, r.2.1, nm2) else r)).find?
          (fun r => r.2.1 == c)).map (fun r => r.1)
        = (rows.find? (fun r => r.2.1 == c)).map (fun r => r.1) := by
  intro rows
  induction rows with
  | nil => rfl
  | cons a t ih =>
    by_cases hp : (a.2.1 == c) = true
    · have h2 : List.find? (fun r => r.2.1 == c) (a :: t) = some a :=
        List.find?_cons_of_pos _ hp
      simp only [List.map_cons, if_pos hp]
      rw [List.find?_cons_of_pos _ (by exact hp), h2]
      rfl
    · have h2 : List.find? (fun r => r.2.1 == c) (a :: t)
          = List.find? (fun r => r.2.1 == c) t :=
        List.find?_cons_of_neg _ hp
      simp only [List.map_cons, if_neg hp]
      rw [List.find?_cons_of_neg _ (by exact hp), h2]
      exact ih

/-- After the upsert's name refresh, the conflicting key resolves to the new
name. -/
theorem issuer_upd_find_name (c nm2 : String) :
    ∀ (rows : List (Nat × String × String)),
      rows.any (fun r => r.2.1 == c) = true →
      ((rows.map (fun r => if r.2.1 == c then (r.1, r.2.1, nm2) else r)).find?
          (fun r => r.2.1 == c)).map (fun r => r.2.2) = some nm2 := by
  intro rows
  induction rows with
  | nil => intro h; exact Bool.noConfusion h
  | cons a t ih =>
    intro h
    by_cases hp : (a.2.1 == c) = true
    · simp only [List.map_cons, if_pos hp]
      rw [List.find?_cons_of_pos _ (by exact hp)]
      rfl
    · simp only [List.any_cons, Bool.or_eq_true] at h
      rcases h with h | h
      · exact absurd h hp
      · simp only [List.map_cons, if_neg hp]
        rw [List.find?_cons_of_neg _ (by exact hp)]
        exact ih h

/-- Claim C9.  Identifier resolution is get-or-create: inserting a lookup
value whose key already has a row changes nothing and the key still resolves
to the existing id; inserting a fresh key appends exactly one row and the
key resolves to the fresh id; upserting an issuer CUSIP that already has a
row keeps the row count, keeps the id the key resolves to, and refreshes the
stored name to the new value; upserting a fresh CUSIP appends one row
resolving to the fresh id. -/
theorem c9_identifier_resolution_get_or_create
    (t : LookupTable) (v w : String) (i : Nat)
    (it : IssuerTable) (c d nm2 nm3 : String) (j : Nat)
    (hv : lookupMap t v = some i)
    (hw : lookupMap t w = none)
    (hc : issuerMap it c = some j)
    (hd : issuerMap it d = none) :
    lookupInsertValue t v = t
    ∧ lookupMap (lookupInsertValue t v) v = some i
    ∧ (lookupInsertValue t w).rows.length = t.rows.length + 1
    ∧ lookupMap (lookupInsertValue t w) w = some t.nextId
    ∧ (issuerInsert it c nm2).rows.length = it.rows.length
    ∧ issuerMap (issuerInsert it c nm2) c = some j
    ∧ issuerNameOf (issuerInsert it c nm2) c = some nm2
    ∧ (issuerInsert it d nm3).rows.length = it.rows.length + 1
    ∧ issuerMap (issuerInsert it d nm3) d = some it.nextId := by
  have hanyv := lookup_any_of_map_some hv
  have hanyw := lookup_any_of_map_none hw
  have hanyc := issuer_any_of_map_some hc
  have hanyd := issuer_any_of_map_none hd
  have hfw : t.rows.find? (fun r => r.2 == w) = none := by
    unfold lookupMap at hw
    cases hf : t.rows.find? (fun r => r.2 == w) with
    | none => rfl
    | some r => rw [hf] at hw; exact Option.noConfusion hw
  have hfd : it.rows.find? (fun r => r.2.1 == d) = none := by
    unfold issuerMap at hd
    cases hf : it.rows.find? (fun r => r.2.1 == d) with
    | none => rfl
    | some r => rw [hf] at hd; exact Option.noConfusion hd
  have h1 : lookupInsertValue t v = t := by
    unfold lookupInsertValue
    rw [if_pos hanyv]
  refine ⟨h1, ?_, ?_, ?_, ?_, ?_, ?_, ?_, ?_⟩
  · rw [h1]; exact hv
  · unfold lookupInsertValue
    rw [if_neg (by simp [hanyw])]
    simp
  · unfold lookupInsertValue lookupMap
    rw [if_neg (by simp [hanyw])]
    dsimp only
    rw [find?_append_of_none _ hfw]
    rw [List.find?_cons_of_pos _ (by simp)]
    rfl
  · unfold issuerInsert
    rw [if_pos hanyc]
    simp
  · unfold issuerInsert issuerMap
    rw [if_pos hanyc]
    dsimp only
    rw [issuer_upd_find_id c nm2 it.rows]
    unfold issuerMap at hc
    exact hc
  · unfold issuerInsert issuerNameOf
    rw [if_pos hanyc]
    dsimp only
    exact issuer_upd_find_name c nm2 it.rows hanyc
  · unfold issuerInsert
    rw [if_neg (by simp [hanyd])]
    simp
  · unfold issuerInsert issuerMap
    rw [if_neg (by simp [hanyd])]
    dsimp only
    rw [find?_append_of_none _ hfd]
    rw [List.find?_cons_of_pos _ (by simp)]
    rfl

/-- Witness for C9: a one-row lookup table and a one-row issuer table with
concrete hit and miss keys. -/
theorem c9_identifier_resolution_get_or_create_witness :
    lookupMap ⟨[(1, "SH")], 2⟩ "SH" = some 1
    ∧ lookupMap ⟨[(1, "SH")], 2⟩ "PRN" = none
    ∧ issuerMap ⟨[(1, "000000000", "Old Name")], 2⟩ "000000000" = some 1
    ∧ issuerMap ⟨[(1, "000000000", "Old Name")], 2⟩ "111111111" = none
    ∧ (lookupInsertValue ⟨[(1, "SH")], 2⟩ "SH" = ⟨[(1, "SH")], 2⟩
      ∧ lookupMap (lookupInsertValue ⟨[(1, "SH")], 2⟩ "SH") "SH" = some 1
      ∧ (lookupInsertValue ⟨[(1, "SH")], 2⟩ "PRN").rows.length
          = (⟨[(1, "SH")], 2⟩ : LookupTable).rows.length + 1
      ∧ lookupMap (lookupInsertValue ⟨[(1, "SH")], 2⟩ "PRN") "PRN"
          = some (⟨[(1, "SH")], 2⟩ : LookupTable).nextId
      ∧ (issuerInsert ⟨[(1, "000000000", "Old Name")], 2⟩ "000000000" "New Name").rows.length
          = (⟨[(1, "000000000", "Old Name")], 2⟩ : IssuerTable).rows.length
      ∧ issuerMap (issuerInsert ⟨[(1, "000000000", "Old Name")], 2⟩ "000000000" "New Name")
          "000000000" = some 1
      ∧ issuerNameOf (issuerInsert ⟨[(1, "000000000", "Old Name")], 2⟩ "000000000" "New Name")
          "000000000" = some "New Name"
      ∧ (issuerInsert ⟨[(1, "000000000", "Old Name")], 2⟩ "111111111" "Another").rows.length
          = (⟨[(1, "000000000", "Old Name")], 2⟩ : IssuerTable).rows.length + 1
      ∧ issuerMap (issuerInsert ⟨[(1, "000000000", "Old Name")], 2⟩ "111111111" "Another")
          "111111111" = some (⟨[(1, "000000000", "Old Name")], 2⟩ : IssuerTable).nextId) :=
  ⟨rfl, rfl, rfl, rfl,
   c9_identifier_resolution_get_or_create ⟨[(1, "SH")], 2⟩ "SH" "PRN" 1
     ⟨[(1, "000000000", "Old Name")], 2⟩ "000000000" "111111111" "New Name" "Another" 1
     rfl rfl rfl rfl⟩


/-- The surviving-row count of a filterMap is the count of rows that map. -/
theorem filterMap_length_eq {α β : Type} (f : α → Option β) :
    ∀ l : List α, (l.filterMap f).length = (l.filter (fun a => (f a).isSome)).length := by
  intro l
  induction l with
  | nil => rfl
  | cons a t ih =>
    cases hf : f a with
    | none => simp [List.filterMap_cons, List.filter_cons, hf, ih]
    | some b => simp [List.filterMap_cons, List.filter_cons, hf, ih]

/-- A filter missing at least one element is strictly shorter. -/
theorem filter_length_lt {α : Type} (p : α → Bool) :
    ∀ (l : List α) (x : α), x ∈ l → p x = false → (l.filter p).length < l.length := by
  intro l
  induction l with
  | nil => intro x hx hpx; exact absurd hx (List.not_mem_nil x)
  | cons a t ih =>
    intro x hx hpx
    rcases List.mem_cons.mp hx with h | h
    · rw [h] at hpx
      rw [List.filter_cons, hpx]
      simp only [Bool.false_eq_true, if_false, List.length_cons]
      exact Nat.lt_succ_of_le (List.length_filter_le p t)
    · rw [List.filter_cons]
      cases hpa : p a with
      | true =>
        simp only [List.length_cons]
        exact Nat.succ_lt_succ (ih x h hpx)
      | false =>
        simp only [Bool.false_eq_true, if_false, List.length_cons]
        exact Nat.lt_succ_of_le (Nat.le_of_lt (ih x h hpx))

/-- Lazy lookup and issuer creation writes no holdings. -/
theorem lookups_issuers_holdings (db : Db) (hs : List HoldingRowRaw) :
    (insert_issuers (insert_lookups db hs) hs).holdings = db.holdings := rfl

/-- Claim C10.  In the batch writer, a holding row whose accession number,
CUSIP, or lookup text value fails to map to an existing id is silently
removed before the bulk COPY: the persisted count is the count of rows whose
maps all succeed, never more than the rows passed in, and strictly smaller
whenever some row fails to map — while the writer always completes,
returning the new store and neither an error nor a count (its return type
carries no error and no count, mirroring the source's None return). -/
theorem c10_batch_writer_silent_drop (db : Db) (hs : List HoldingRowRaw) :
    (insert_holdings_batch db hs).holdings.length
      = db.holdings.length
        + (hs.filter (fun h =>
            (mapHoldingRow (insert_issuers (insert_lookups db hs) hs) h).isSome)).length
    ∧ (insert_holdings_batch db hs).holdings.length ≤ db.holdings.length + hs.length
    ∧ (∀ h ∈ hs, mapHoldingRow (insert_issuers (insert_lookups db hs) hs) h = none →
        (insert_holdings_batch db hs).holdings.length < db.holdings.length + hs.length) := by
  have hform : (insert_holdings_batch db hs).holdings
      = db.holdings ++ hs.filterMap (mapHoldingRow (insert_issuers (insert_lookups db hs) hs)) :=
    rfl
  have hA : (insert_holdings_batch db hs).holdings.length
      = db.holdings.length
        + (hs.filter (fun h =>
            (mapHoldingRow (insert_issuers (insert_lookups db hs) hs) h).isSome)).length := by
    rw [hform, List.length_append, filterMap_length_eq]
  refine ⟨hA, ?_, ?_⟩
  · rw [hA]
    exact Nat.add_le_add_left (List.length_filter_le _ _) _
  · intro h hmem hnone
    rw [hA]
    apply Nat.add_lt_add_left
    exact filter_length_lt _ hs h hmem (by rw [hnone]; rfl)

/-- Witness for C10: a well-formed extracted row whose accession number has
no filings row is silently dropped: the batch completes and persists zero of
the one row passed in. -/
theorem c10_batch_writer_silent_drop_witness :
    mapHoldingRow (insert_issuers (insert_lookups baseDb
        [⟨"0000000111", "0001-22-999999", 500, 1000, "COM", "SH", "SOLE", "NONE",
          500, 0, 0, "Acme Corp", "000000000"⟩])
        [⟨"0000000111", "0001-22-999999", 500, 1000, "COM", "SH", "SOLE", "NONE",
          500, 0, 0, "Acme Corp", "000000000"⟩])
      ⟨"0000000111", "0001-22-999999", 500, 1000, "COM", "SH", "SOLE", "NONE",
        500, 0, 0, "Acme Corp", "000000000"⟩ = none
    ∧ (insert_holdings_batch baseDb
        [⟨"0000000111", "0001-22-999999", 500, 1000, "COM", "SH", "SOLE", "NONE",
          500, 0, 0, "Acme Corp", "000000000"⟩]).holdings = []
    ∧ (insert_holdings_batch baseDb
        [⟨"0000000111", "0001-22-999999", 500, 1000, "COM", "SH", "SOLE", "NONE",
          500, 0, 0, "Acme Corp", "000000000"⟩]).holdings.length
      < baseDb.holdings.length
        + [(⟨"0000000111", "0001-22-999999", 500, 1000, "COM", "SH", "SOLE", "NONE",
            500, 0, 0, "Acme Corp", "000000000"⟩ : HoldingRowRaw)].length :=
  ⟨rfl, rfl,
   (c10_batch_writer_silent_drop baseDb
       [⟨"0000000111", "0001-22-999999", 500, 1000, "COM", "SH", "SOLE", "NONE",
         500, 0, 0, "Acme Corp", "000000000"⟩]).2.2
     ⟨"0000000111", "0001-22-999999", 500, 1000, "COM", "SH", "SOLE", "NONE",
       500, 0, 0, "Acme Corp", "000000000"⟩ (by simp) rfl⟩


/-- Claim C3.  For every admitted filing whose manager is known and whose
processing succeeds, exactly one `filings` row is persisted for its
accession number, the filing is marked seen, and exactly one outbound
notification is emitted (the notification step is modelled from the spec,
section 4.5, since src/main.py never invokes `publish_to_firehose`; the
publisher itself delivers the one story to every configured endpoint).  On
the concrete spec-section-8 scenario — tracked entity, well-formed one-entry
information table for issuer Acme Corp — the run leaves one filing row, one
holding row with value 1000, shares 500, voting sole 500, shared 0, none 0,
whose put-or-call id resolves back to NONE and whose issuer id resolves back
to CUSIP 000000000, and one notification. -/
theorem c3_admitted_filing_pipeline :
    (∀ (extract : Extractor) (db0 : Db) (seen0 relevant : List String)
        (f : FilingDesc) (mid : Nat),
      gateOf db0 seen0 relevant f = GateResult.admitted →
      getManagerByCik db0 f.cik = some mid →
      (process_filings extract relevant ⟨db0, seen0, [], []⟩ [f]).2 = none →
      countAcc (process_filings extract relevant ⟨db0, seen0, [], []⟩ [f]).1.db
          f.accession_number = 1
      ∧ (process_filings extract relevant ⟨db0, seen0, [], []⟩ [f]).1.notified
          = [f.accession_number]
      ∧ (process_filings extract relevant ⟨db0, seen0, [], []⟩ [f]).1.seen
          = seen0 ++ [f.accession_number])
    ∧ (process_filings gather_data_with_bs4 relOne startState [acmeFiling]).2 = none
    ∧ (process_filings gather_data_with_bs4 relOne startState [acmeFiling]).1.db.filings.map
        (fun r => r.accession_number) = [acmeFiling.accession_number]
    ∧ (process_filings gather_data_with_bs4 relOne startState [acmeFiling]).1.db.holdings.map
        (fun h => (h.value, h.shares_or_principal_amount, h.voting_authority_sole,
          h.voting_authority_shared, h.voting_authority_none)) = [(1000, 500, 500, 0, 0)]
    ∧ (process_filings gather_data_with_bs4 relOne startState [acmeFiling]).1.db.holdings.map
        (fun h => lookupNameOf
          (process_filings gather_data_with_bs4 relOne startState [acmeFiling]).1.db.putCallT
          h.put_or_call) = [some "NONE"]
    ∧ (process_filings gather_data_with_bs4 relOne startState [acmeFiling]).1.db.holdings.map
        (fun h => issuerCusipOf
          (process_filings gather_data_with_bs4 relOne startState [acmeFiling]).1.db.issuers
          h.issuer_id) = [some "000000000"]
    ∧ (process_filings gather_data_with_bs4 relOne startState [acmeFiling]).1.notified
        = [acmeFiling.accession_number]
    ∧ (∀ urls : List String,
        (publish_to_firehose acmeFiling.accession_number urls).length = urls.length) := by
  refine ⟨?_, rfl, rfl, rfl, rfl, rfl, rfl, fun urls => by simp [publish_to_firehose]⟩
  intro extract db0 seen0 relevant f mid hadm hmgr hrun
  unfold gateOf at hadm
  have hcik : relevant.contains f.cik = true := by
    by_contra hc
    rw [Bool.not_eq_true] at hc
    rw [hc] at hadm
    simp at hadm
  rw [hcik] at hadm
  simp only [Bool.not_true, Bool.false_eq_true, if_false] at hadm
  have hor : (seen0.contains f.accession_number || filing_exists db0 f.accession_number)
      = false := by
    by_contra hc
    rw [Bool.not_eq_false] at hc
    rw [hc] at hadm
    simp at hadm
  rw [Bool.or_eq_false_iff] at hor
  obtain ⟨hseen, hex⟩ := hor
  have hpo := processOne_admitted extract relevant ⟨db0, seen0, [], []⟩ f mid hcik hseen hex hmgr
  cases hres : (processAttachments extract f.cik f.accession_number
      (insert_filing db0 mid f.accession_number f.form).1 [] f.attachments).2.2 with
  | some e =>
    exfalso
    rw [hres] at hpo
    have hpo2 : processOne extract relevant ⟨db0, seen0, [], []⟩ f
        = ({ db := (processAttachments extract f.cik f.accession_number
                (insert_filing db0 mid f.accession_number f.form).1 [] f.attachments).1
             seen := seen0
             extracted := (processAttachments extract f.cik f.accession_number
                (insert_filing db0 mid f.accession_number f.form).1 [] f.attachments).2.1
             notified := [] }, some e) := by rw [hpo]; rfl
    have hbad := process_filings_cons_err extract relevant _ f _ e [] hpo2
    rw [hbad] at hrun
    exact Option.noConfusion hrun
  | none =>
    rw [hres] at hpo
    have hpo2 : processOne extract relevant ⟨db0, seen0, [], []⟩ f
        = ({ db := (processAttachments extract f.cik f.accession_number
                (insert_filing db0 mid f.accession_number f.form).1 [] f.attachments).1
             seen := seen0 ++ [f.accession_number]
             extracted := (processAttachments extract f.cik f.accession_number
                (insert_filing db0 mid f.accession_number f.form).1 [] f.attachments).2.1
             notified := [f.accession_number] }, none) := by rw [hpo]; rfl
    have h1 : process_filings extract relevant ⟨db0, seen0, [], []⟩ [f]
        = ({ db := (processAttachments extract f.cik f.accession_number
                (insert_filing db0 mid f.accession_number f.form).1 [] f.attachments).1
             seen := seen0 ++ [f.accession_number]
             extracted := (processAttachments extract f.cik f.accession_number
                (insert_filing db0 mid f.accession_number f.form).1 [] f.attachments).2.1
             notified := [f.accession_number] }, none) := by
      rw [process_filings_cons_ok extract relevant _ f _ [] hpo2, process_filings_nil]
    have hfil : (processAttachments extract f.cik f.accession_number
        (insert_filing db0 mid f.accession_number f.form).1 [] f.attachments).1.filings
        = db0.filings ++ [⟨db0.nextFilingId, mid, f.accession_number, f.form⟩] :=
      processAttachments_filings extract f.cik f.accession_number f.attachments _ []
    refine ⟨?_, ?_, ?_⟩
    · rw [h1]
      unfold countAcc
      rw [hfil, List.filter_append, List.length_append,
        filter_len_zero_of_any_false db0.filings hex]
      simp
    · rw [h1]
    · rw [h1]

/-- Witness for C3: the scenario filing is admitted, its manager exists, its
run succeeds, and the pipeline conclusions hold. -/
theorem c3_admitted_filing_pipeline_witness :
    gateOf baseDb [] relOne acmeFiling = GateResult.admitted
    ∧ getManagerByCik baseDb acmeFiling.cik = some 7
    ∧ (process_filings gather_data_with_bs4 relOne ⟨baseDb, [], [], []⟩ [acmeFiling]).2 = none
    ∧ (countAcc (process_filings gather_data_with_bs4 relOne
          ⟨baseDb, [], [], []⟩ [acmeFiling]).1.db acmeFiling.accession_number = 1
      ∧ (process_filings gather_data_with_bs4 relOne
          ⟨baseDb, [], [], []⟩ [acmeFiling]).1.notified = [acmeFiling.accession_number]
      ∧ (process_filings gather_data_with_bs4 relOne
          ⟨baseDb, [], [], []⟩ [acmeFiling]).1.seen = [] ++ [acmeFiling.accession_number]) :=
  ⟨rfl, rfl, rfl,
   c3_admitted_filing_pipeline.1 gather_data_with_bs4 baseDb [] relOne acmeFiling 7
     rfl rfl rfl⟩

end SecPoll
